import Mathlib

/-!
Verification of the Sudoku solver (src/sudoku.rs).

The program reads a puzzle from a line-oriented text stream into a mutable
grid, solves it in place by chronological backtracking, and prints the grid.
This file gives a shallow embedding of the program into Lean:

* `Grid` models the `type grid = [[mutable u8]]` value built by `read_grid`
  (`vec::init_fn` of 10 rows, each `vec::init_elt_mut(0u8, 10)`, so 10×10);
* `readGrid` models `read_grid` (header assertion, line loop, `str::trim` /
  `str::split` parsing, bounds-checked stores); failures of the original
  (assert failure, vector index out of bounds, `uint::from_str` on a
  malformed numeral) are modelled by `Except.error`;
* `nextColor` / `dropColors` / `dropColor` model the candidate computation;
* `stepF` / `run` / `solveGrid` model the backtracking driver of
  `solve_grid` (`fail` is modelled by `Outcome.unsolvable`); the loop is
  given fuel `11 ^ work.length + 1`, proved sufficient below;
* `writeGrid` models `write_grid`.
-/

/-! ### The grid -/

/-- Model of `type grid = [[mutable u8]]`: a vector of row vectors of
naturals (u8 values are naturals < 256; every store made by the program is
reduced mod 256 where the original performs an `as u8` cast). -/
abbrev Grid : Type := List (List Nat)

/-- Model of the read `g[row][col]` (0 when out of bounds; the shapes used
by the program keep all reads of `solve_grid`/`write_grid` in bounds). -/
def getCell (g : Grid) (r c : Nat) : Nat := (g.getD r []).getD c 0

/-- Model of the write `g[row][col] = v` (no-op when out of bounds; the
parser's stores are bounds-checked separately, matching the vector
bounds-check failure of the original). -/
def setCell (g : Grid) (r c v : Nat) : Grid :=
  g.set r ((g.getD r []).set c v)

/-- Shape of every grid the program manipulates: 10 rows of 10 cells, as
allocated by `read_grid` (`vec::init_fn(... init_elt_mut(0u8, 10), 10)`). -/
def WF (g : Grid) : Prop :=
  g.length = 10 ∧ ∀ i, i < 10 → (g.getD i []).length = 10

instance (g : Grid) : Decidable (WF g) := by
  unfold WF
  infer_instance

/-- All cells hold digits ≤ 9 (the data-model range of the spec). -/
def CellsLe9 (g : Grid) : Prop := ∀ r, r < 10 → ∀ c, c < 10 → getCell g r c ≤ 9

instance (g : Grid) : Decidable (CellsLe9 g) := by
  unfold CellsLe9
  infer_instance

/-! ### The parser: `read_grid` -/

/-- The grid allocated at the start of `read_grid`:
`vec::init_fn({|_| vec::init_elt_mut(0u8, 10)}, 10)`, i.e. 10 rows of 10
zeros. -/
def emptyGrid : Grid := List.replicate 10 (List.replicate 10 0)

/-- Model of `str::trim` on the character list of a line: strip leading
and trailing whitespace. -/
def trimChars (l : List Char) : List Char :=
  ((l.dropWhile Char.isWhitespace).reverse.dropWhile Char.isWhitespace).reverse

/-- Model of `str::split(line, sep)`: split a character list at every
occurrence of the separator. -/
def splitChars (sep : Char) : List Char → List (List Char)
  | [] => [[]]
  | c :: rest =>
    match splitChars sep rest with
    | [] => [[c]]
    | f :: fs => if c = sep then [] :: f :: fs else (c :: f) :: fs

/-- Model of `uint::from_str`: parses a decimal numeral, failing on a
malformed field (the spec's `FormatError`). -/
def parseUint (l : List Char) : Except String Nat :=
  match l.foldl
      (fun acc c =>
        match acc with
        | none => none
        | some n => if '0' ≤ c ∧ c ≤ '9' then some (n * 10 + (c.toNat - 48)) else none)
      (some 0) with
  | some n => if l = [] then .error "FormatError" else .ok n
  | none => .error "FormatError"

/-- Model of the bounds-checked vector read `comps[i]` (old Rust vectors
fail the task on an out-of-bounds index). -/
def indexField (l : List (List Char)) (i : Nat) : Except String (List Char) :=
  match l.get? i with
  | some s => .ok s
  | none => .error "index out of bounds"

/-- Parse one data line the way the body of `read_grid`'s loop does:
trim; skip if empty; split on `','`; read and parse fields 0, 1, 2 in
order (`comps[0]`, `comps[1]`, `comps[2]` with `uint::from_str` on each).
Each parsed `uint` is cast `as u8`, i.e. reduced mod 256.  Returns `none`
for a skipped (blank) line. -/
def parseLine (line : String) : Except String (Option (Nat × Nat × Nat)) :=
  if trimChars line.data = [] then .ok none
  else
    match indexField (splitChars ',' (trimChars line.data)) 0 with
    | .error e => .error e
    | .ok s0 =>
      match parseUint s0 with
      | .error e => .error e
      | .ok row =>
        match indexField (splitChars ',' (trimChars line.data)) 1 with
        | .error e => .error e
        | .ok s1 =>
          match parseUint s1 with
          | .error e => .error e
          | .ok col =>
            match indexField (splitChars ',' (trimChars line.data)) 2 with
            | .error e => .error e
            | .ok s2 =>
              match parseUint s2 with
              | .error e => .error e
              | .ok color => .ok (some (row % 256, col % 256, color % 256))

/-- Apply one data line to the grid: `g[row][col] = color`, with the
bounds check of the 10×10 vectors (an out-of-range row or column index
fails, as vector indexing does in the original). -/
def processLine (g : Grid) (line : String) : Except String Grid :=
  match parseLine line with
  | .error e => .error e
  | .ok none => .ok g
  | .ok (some (row, col, color)) =>
    if row < 10 ∧ col < 10 then .ok (setCell g row col color)
    else .error "index out of bounds"

/-- The `while !f.eof()` loop of `read_grid`. -/
def processLines : Grid → List String → Except String Grid
  | g, [] => .ok g
  | g, l :: ls =>
    match processLine g l with
    | .error e => .error e
    | .ok g' => processLines g' ls

/-- Model of `read_grid`: the input stream is the list of its lines.  The
first line must be exactly `"9,9"` (the `assert`), the rest are data
lines. -/
def readGrid (input : List String) : Except String Grid :=
  match input with
  | [] => .error "assertion failed"
  | first :: rest =>
    if first = "9,9" then processLines emptyGrid rest else .error "assertion failed"

instance {ε α : Type} [DecidableEq ε] [DecidableEq α] : DecidableEq (Except ε α) :=
  fun x y =>
  match x, y with
  | .ok a, .ok b =>
    if h : a = b then .isTrue (by rw [h]) else
      .isFalse (fun he => h (by injection he))
  | .error a, .error b =>
    if h : a = b then .isTrue (by rw [h]) else
      .isFalse (fun he => h (by injection he))
  | .ok _, .error _ => .isFalse (fun he => by injection he)
  | .error _, .ok _ => .isFalse (fun he => by injection he)

/-! ### The solver: `solve_grid` -/

/-- The 27 cells visited by `drop_colors`, in visit order: for
`idx = 0..8` the cells `(idx, col)` and `(row, idx)`, then the 3×3 block
at `(row/3*3, col/3*3)`. -/
def scanCells (row col : Nat) : List (Nat × Nat) :=
  ((List.range 9).flatMap (fun idx => [(idx, col), (row, idx)])) ++
    ((List.range 3).flatMap (fun dr =>
      (List.range 3).map (fun dc => (row / 3 * 3 + dr, col / 3 * 3 + dc))))

/-- Model of the inner `drop_color`: clear the availability bit of the
value at `(row, col)` unless that value is 0.  The bit vector is modelled
as a total function on ℕ. -/
def dropColor (g : Grid) (colors : Nat → Bool) (row col : Nat) : Nat → Bool :=
  let color := getCell g row col
  if color ≠ 0 then fun i => if i = color then false else colors i
  else colors

/-- Model of `drop_colors`: run `drop_color` over the 27 scanned cells in
code order. -/
def dropColors (g : Grid) (avail : Nat → Bool) (row col : Nat) : Nat → Bool :=
  (scanCells row col).foldl (fun a q => dropColor g a q.1 q.2) avail

/-- Model of `next_color`: if `start_color < 10`, build the availability
set of digits in `[start_color, 9]`, drop the neighbourhood colors, and
write the smallest available digit in `[1, 9]` into the cell, reporting
success; otherwise (or when none is available) write 0 and report
failure. -/
def nextColor (g : Grid) (row col startColor : Nat) : Grid × Bool :=
  if startColor < 10 then
    match (List.range' 1 9).find?
        (fun i => dropColors g (fun j => decide (startColor ≤ j ∧ j < 10)) row col i) with
    | some i => (setCell g row col i, true)
    | none => (setCell g row col 0, false)
  else
    (setCell g row col 0, false)

/-- The work list of `solve_grid`: the coordinates of the cells of rows
0–8 and columns 0–8 whose value is 0, in row-major order. -/
def buildWork (g : Grid) : List (Nat × Nat) :=
  (List.range 9).flatMap (fun row =>
    (List.range 9).filterMap (fun col =>
      if getCell g row col = 0 then some (row, col) else none))

/-- Result of one iteration of the `while (ptr < end)` loop. -/
inductive StepRes where
  | cont (g : Grid) (p : Nat)
  | done (g : Grid)
  | failed
deriving DecidableEq

/-- One iteration of the driver loop at cursor `p`: on `ptr < end`, try
`next_color(g, row, col, g[row][col] + 1)`; on success advance the
cursor, on failure retreat (or fail the whole solve at cursor 0). -/
def stepF (work : List (Nat × Nat)) (g : Grid) (p : Nat) : StepRes :=
  if h : p < work.length then
    let rc := work.get ⟨p, h⟩
    let res := nextColor g rc.1 rc.2 (getCell g rc.1 rc.2 + 1)
    if res.2 then StepRes.cont res.1 (p + 1)
    else if p = 0 then StepRes.failed
    else StepRes.cont res.1 (p - 1)
  else StepRes.done g

/-- Result of `solve_grid`: normal return with the final grid, the
`fail "No solution found for this sudoku"` abort, or fuel exhaustion of
the model (proved unreachable below). -/
inductive Outcome where
  | ok (g : Grid)
  | unsolvable
  | fuelOut
deriving DecidableEq

/-- The driver loop, with fuel. -/
def run (work : List (Nat × Nat)) : Nat → Grid → Nat → Outcome
  | 0, _, _ => Outcome.fuelOut
  | fuel + 1, g, p =>
    match stepF work g p with
    | StepRes.done g' => Outcome.ok g'
    | StepRes.failed => Outcome.unsolvable
    | StepRes.cont g' p' => run work fuel g' p'

/-- Model of `solve_grid`: build the work list and run the loop from
cursor 0.  The fuel `11 ^ work.length + 1` is proved sufficient below
(`run_no_fuelOut`), so `Outcome.fuelOut` never occurs on well-formed
grids. -/
def solveGrid (g : Grid) : Outcome :=
  run (buildWork g) (11 ^ (buildWork g).length + 1) g 0

/-! ### The printer: `write_grid` -/

/-- Model of `write_grid`: one output line per row 0–8, the 9 cells of
columns 0–8 separated by single spaces. -/
def writeGrid (g : Grid) : List String :=
  (List.range 9).map (fun row =>
    String.intercalate " " ((List.range 9).map (fun col => toString (getCell g row col))))

/-- Model of `main`: read, solve, write.  A solver failure surfaces as
the process-aborting error message. -/
def runProgram (input : List String) : Except String (List String) :=
  match readGrid input with
  | .error e => .error e
  | .ok g =>
    match solveGrid g with
    | Outcome.ok g' => .ok (writeGrid g')
    | _ => .error "No solution found for this sudoku"

/-! ### The scanned neighbourhood -/

/-- Cell `(a, b)` shares the row, the column, or the 3×3 block of
`(row, col)` — the union scanned by `drop_colors` (all indices are the
0–8 ones the scan visits). -/
def SameUnit (row col a b : Nat) : Prop :=
  (b = col ∧ a < 9) ∨ (a = row ∧ b < 9) ∨
    (row / 3 * 3 ≤ a ∧ a < row / 3 * 3 + 3 ∧ col / 3 * 3 ≤ b ∧ b < col / 3 * 3 + 3)

instance (row col a b : Nat) : Decidable (SameUnit row col a b) := by
  unfold SameUnit
  infer_instance

/-- A digit `next_color(g, row, col, start)` may place: a digit of
`[max 1 start, 9]` held by none of the 27 scanned cells. -/
def CandidateAt (g : Grid) (row col start d : Nat) : Prop :=
  1 ≤ d ∧ start ≤ d ∧ d ≤ 9 ∧ ∀ q ∈ scanCells row col, getCell g q.1 q.2 ≠ d

instance (g : Grid) (row col start d : Nat) :
    Decidable (CandidateAt g row col start d) := by
  unfold CandidateAt
  infer_instance

/-! ### The loop invariant -/

/-- The value of the `i`-th work-list cell. -/
def workVal (work : List (Nat × Nat)) (g : Grid) (i : Nat) : Nat :=
  getCell g (work.getD i (0, 0)).1 (work.getD i (0, 0)).2

/-- Cell `(row, col)` holds a digit 1–9 different from the value of every
other cell of its row, column and block. -/
def Consistent (g : Grid) (row col : Nat) : Prop :=
  1 ≤ getCell g row col ∧ getCell g row col ≤ 9 ∧
    ∀ q ∈ scanCells row col, q ≠ (row, col) → getCell g q.1 q.2 ≠ getCell g row col

instance (g : Grid) (row col : Nat) : Decidable (Consistent g row col) := by
  unfold Consistent
  infer_instance

/-- Shape/coordinate facts about a work list that the driver relies on. -/
def GoodWork (work : List (Nat × Nat)) : Prop :=
  work.Nodup ∧ ∀ q ∈ work, q.1 < 9 ∧ q.2 < 9

/-- The driver's state invariant at cursor `p` (the amended form: cells at
work positions `< p` hold consistent digits, cells at positions `> p`
hold 0, the cell at position `p` holds 0 or — after a retreat — its
still-consistent previous digit). -/
def InvW (work : List (Nat × Nat)) (g : Grid) (p : Nat) : Prop :=
  WF g ∧ (∀ r c, getCell g r c ≤ 9) ∧ p ≤ work.length ∧
    (∀ i, i < p → Consistent g (work.getD i (0, 0)).1 (work.getD i (0, 0)).2) ∧
    (∀ i, p < i → i < work.length → workVal work g i = 0) ∧
    (p < work.length →
      workVal work g p = 0 ∨ Consistent g (work.getD p (0, 0)).1 (work.getD p (0, 0)).2)

/-! ### Termination of the driver loop -/

/-- Value of a digit list in base 11 (most significant digit first). -/
def base11 : List Nat → Nat
  | [] => 0
  | d :: ds => d * 11 ^ ds.length + base11 ds

/-- Digit list of the termination key at cursor `p`: the values of the
work cells before the cursor, then (while the loop is still running) the
next candidate `value + 1` at the cursor, padded with zeros. -/
def keyDigits (work : List (Nat × Nat)) (g : Grid) (p : Nat) : List Nat :=
  ((List.range p).map (workVal work g)) ++
    (if p < work.length then
      (workVal work g p + 1) :: List.replicate (work.length - p - 1) 0
    else [])

/-- The termination key: strictly increases at every `cont` step of the
driver and is bounded by `11 ^ work.length`, so the loop terminates. -/
def key (work : List (Nat × Nat)) (g : Grid) (p : Nat) : Nat :=
  base11 (keyDigits work g p) + (if p < work.length then 0 else 1)

/-! ### Validity of a solved grid -/

/-- The 9 values of row `r` (columns 0–8). -/
def rowVals (g : Grid) (r : Nat) : List Nat :=
  (List.range 9).map (fun c => getCell g r c)

/-- The 9 values of column `c` (rows 0–8). -/
def colVals (g : Grid) (c : Nat) : List Nat :=
  (List.range 9).map (fun r => getCell g r c)

/-- The 9 values of the 3×3 block with block coordinates
`(br, bc) ∈ [0,2] × [0,2]`, row-major. -/
def blockVals (g : Grid) (br bc : Nat) : List Nat :=
  (List.range 9).map (fun k => getCell g (3 * br + k / 3) (3 * bc + k % 3))

/-- A complete valid Sudoku solution: every row, column and block holds
the digits 1–9 as a permutation. -/
def ValidSolution (g : Grid) : Prop :=
  (∀ r, r < 9 → (rowVals g r).Perm (List.range' 1 9)) ∧
    (∀ c, c < 9 → (colVals g c).Perm (List.range' 1 9)) ∧
    (∀ br, br < 3 → ∀ bc, bc < 3 → (blockVals g br bc).Perm (List.range' 1 9))

instance (g : Grid) : Decidable (ValidSolution g) := by
  unfold ValidSolution
  infer_instance

/-- Cells `(r, c)` and `(a, b)` are two distinct non-zero givens sharing
a row, column or block. -/
def GivensConflict (g : Grid) (r c a b : Nat) : Prop :=
  getCell g r c ≠ 0 ∧ getCell g a b ≠ 0 ∧ ¬(a = r ∧ b = c) ∧ SameUnit r c a b

instance (g : Grid) (r c a b : Nat) : Decidable (GivensConflict g r c a b) := by
  unfold GivensConflict
  infer_instance

/-- The input's non-zero cells (the givens) are pairwise compatible: no
two distinct givens sharing a row, column or block hold the same digit. -/
def GivensOK (g : Grid) : Prop :=
  ∀ r, r < 9 → ∀ c, c < 9 → ∀ a, a < 9 → ∀ b, b < 9 →
    GivensConflict g r c a b → getCell g a b ≠ getCell g r c

instance (g : Grid) : Decidable (GivensOK g) := by
  unfold GivensOK
  infer_instance

/-! ### The 10th row and column do not matter -/

/-- Two grids agreeing on the board cells actually used by the solver and
the printer (rows 0–8, columns 0–8). -/
def Agree8 (g1 g2 : Grid) : Prop :=
  ∀ r c, r < 9 → c < 9 → getCell g1 r c = getCell g2 r c

/-- Outcomes of two runs related up to the unused 10th row/column. -/
def OutRel (o1 o2 : Outcome) : Prop :=
  match o1, o2 with
  | Outcome.ok h1, Outcome.ok h2 => WF h1 ∧ WF h2 ∧ Agree8 h1 h2
  | Outcome.unsolvable, Outcome.unsolvable => True
  | Outcome.fuelOut, Outcome.fuelOut => True
  | _, _ => False

/-- Parsing results of two runs related up to the unused 10th
row/column: same error, or two well-formed grids agreeing on the board. -/
def GridRel (x1 x2 : Except String Grid) : Prop :=
  match x1, x2 with
  | .ok g1, .ok g2 => WF g1 ∧ WF g2 ∧ Agree8 g1 g2
  | .error e1, .error e2 => e1 = e2
  | _, _ => False

/-! ### Observable iteration of the driver loop -/

/-- One observable transition of the driver loop: `none` once the loop
has stopped (accepted or failed). -/
def stepO (work : List (Nat × Nat)) (s : Option (Grid × Nat)) : Option (Grid × Nat) :=
  match s with
  | none => none
  | some (g, p) =>
    match stepF work g p with
    | StepRes.cont g' p' => some (g', p')
    | _ => none

/-- The state of `solve_grid`'s loop on input `g0` after `n` iterations
(grid and cursor at the iteration boundary), `none` once the loop has
stopped. -/
def iterState (g0 : Grid) (n : Nat) : Option (Grid × Nat) :=
  (stepO (buildWork g0))^[n] (some (g0, 0))

/-! ### Concrete grids used as test inputs -/

/-- A complete valid Sudoku solution (with the extra 10th row and column
of `read_grid`'s 10×10 allocation left 0). -/
def fullGrid : Grid :=
  [[1,2,3,4,5,6,7,8,9,0],
   [4,5,6,7,8,9,1,2,3,0],
   [7,8,9,1,2,3,4,5,6,0],
   [2,3,4,5,6,7,8,9,1,0],
   [5,6,7,8,9,1,2,3,4,0],
   [8,9,1,2,3,4,5,6,7,0],
   [3,4,5,6,7,8,9,1,2,0],
   [6,7,8,9,1,2,3,4,5,0],
   [9,1,2,3,4,5,6,7,8,0],
   [0,0,0,0,0,0,0,0,0,0]]

/-- `fullGrid` with one cell blanked: a puzzle with a single work cell. -/
def almostGrid : Grid := setCell fullGrid 8 8 0

/-- A grid whose 100 cells all hold 7: no empty cells, many duplicated
givens. -/
def grid7s : Grid := List.replicate 10 (List.replicate 10 7)

/-- A grid whose 100 cells all hold 5: no empty cells, duplicated givens
`(0,0,5)` and `(0,1,5)` in row 0. -/
def grid5s : Grid := List.replicate 10 (List.replicate 10 5)

/-- A grid with exactly two empty cells `(0,0)` and `(0,1)`: the first
gets color 1, the second then has no candidate, forcing a retreat. -/
def gridC6 : Grid :=
  [[0,0,3,4,5,6,7,8,9,0],
   [2,2,2,2,2,2,2,2,2,2],
   [2,2,2,2,2,2,2,2,2,2],
   [2,2,2,2,2,2,2,2,2,2],
   [2,2,2,2,2,2,2,2,2,2],
   [2,2,2,2,2,2,2,2,2,2],
   [2,2,2,2,2,2,2,2,2,2],
   [2,2,2,2,2,2,2,2,2,2],
   [2,2,2,2,2,2,2,2,2,2],
   [0,0,0,0,0,0,0,0,0,0]]

/-- Cell `(a, b)` is a cell *other than* `(row, col)` sharing its row,
column or block. -/
def NonSelfUnit (row col a b : Nat) : Prop :=
  SameUnit row col a b ∧ ¬(a = row ∧ b = col)

instance (row col a b : Nat) : Decidable (NonSelfUnit row col a b) := by
  unfold NonSelfUnit
  infer_instance

/-- Digit `d` conflicts with no *other* cell of the row, column or block
of `(row, col)`: the claim-level candidate notion of the spec's §4.1
contract. -/
def OtherFree (g : Grid) (row col d : Nat) : Prop :=
  ∀ a, a < 9 → ∀ b, b < 9 → NonSelfUnit row col a b → getCell g a b ≠ d

instance (g : Grid) (row col d : Nat) : Decidable (OtherFree g row col d) := by
  unfold OtherFree
  infer_instance

/-! ### Theorems -/

theorem getCell_default (g : Grid) (r c : Nat) (h : g.length ≤ r) :
    getCell g r c = 0 := by
  unfold getCell
  rw [List.getD_eq_default _ _ h]
  simp

theorem getCell_le9 (g : Grid) (h : CellsLe9 g) (hwf : WF g) (r c : Nat) :
    getCell g r c ≤ 9 := by
  by_cases hr : r < 10
  · by_cases hc : c < 10
    · exact h r hr c hc
    · unfold getCell
      rw [List.getD_eq_default]
      · omega
      · rw [hwf.2 r hr]
        omega
  · rw [getCell_default g r c (by rw [hwf.1]; omega)]
    omega

theorem setCell_length (g : Grid) (r c v : Nat) :
    (setCell g r c v).length = g.length := by
  unfold setCell
  simp

theorem getCell_setCell_ne (g : Grid) (r c v r' c' : Nat)
    (h : (r', c') ≠ (r, c)) :
    getCell (setCell g r c v) r' c' = getCell g r' c' := by
  have hrc : r' ≠ r ∨ c' ≠ c := by
    by_cases hr : r' = r
    · right
      intro hc
      exact h (by rw [hr, hc])
    · left
      exact hr
  unfold getCell setCell
  simp only [List.getD_eq_getElem?_getD, List.getElem?_set]
  rcases hrc with hr | hc
  · rw [if_neg (fun he => hr he.symm)]
  · by_cases hr : r = r'
    · subst hr
      by_cases hlen : r < g.length
      · simp only [if_pos rfl, if_pos hlen, if_true, Option.getD_some,
          List.getElem?_set_ne (fun he => hc he.symm)]
      · simp only [if_pos rfl, if_neg hlen, if_true, Option.getD_none]
        have : g[r]? = none := List.getElem?_eq_none (by omega)
        rw [this]
        rfl
    · rw [if_neg hr]

theorem getCell_setCell_same (g : Grid) (hwf : WF g) (r c v : Nat)
    (hr : r < 10) (hc : c < 10) :
    getCell (setCell g r c v) r c = v := by
  unfold getCell setCell
  simp only [List.getD_eq_getElem?_getD,
    List.getElem?_set_self (show r < g.length by rw [hwf.1]; exact hr),
    Option.getD_some]
  rw [List.getElem?_set_self]
  · rfl
  · have h2 := hwf.2 r hr
    rw [List.getD_eq_getElem?_getD] at h2
    rw [h2]
    exact hc

theorem WF_setCell (g : Grid) (hwf : WF g) (r c v : Nat) : WF (setCell g r c v) := by
  constructor
  · rw [setCell_length]
    exact hwf.1
  · intro i hi
    unfold setCell
    simp only [List.getD_eq_getElem?_getD, List.getElem?_set]
    by_cases hri : r = i
    · subst hri
      by_cases hlen : r < g.length
      · simp only [if_pos rfl, if_pos hlen, if_true, Option.getD_some, List.length_set]
        have h2 := hwf.2 r hi
        rw [List.getD_eq_getElem?_getD] at h2
        exact h2
      · rw [hwf.1] at hlen
        omega
    · simp only [if_neg hri]
      rw [← List.getD_eq_getElem?_getD]
      exact hwf.2 i hi

theorem CellsLe9_setCell (g : Grid) (hwf : WF g) (h : CellsLe9 g) (r c v : Nat)
    (hv : v ≤ 9) : CellsLe9 (setCell g r c v) := by
  intro r' hr' c' hc'
  by_cases he : (r', c') = (r, c)
  · injection he with h1 h2
    subst h1; subst h2
    rw [getCell_setCell_same g hwf r' c' v hr' hc']
    exact hv
  · rw [getCell_setCell_ne g r c v r' c' he]
    exact h r' hr' c' hc'

example : getCell [[1,2],[3,4]] 1 0 = 3 := by decide

example : getCell (setCell [[1,2],[3,4]] 0 1 9) 0 1 = 9 := by decide

example : readGrid ["9,9"] = .ok emptyGrid := by decide

example : readGrid ["9,9", "0,1,4"] = .ok (setCell emptyGrid 0 1 4) := by decide

example : readGrid ["9,9", "1,2"] = .error "index out of bounds" := by decide

example : readGrid ["9,9", "  "] = .ok emptyGrid := by decide

example : readGrid ["8,8"] = .error "assertion failed" := by decide

theorem mem_scanCells (row col a b : Nat) :
    (a, b) ∈ scanCells row col ↔ SameUnit row col a b := by
  unfold scanCells SameUnit
  simp only [List.mem_append, List.mem_flatMap, List.mem_range, List.mem_map,
    List.mem_cons, List.not_mem_nil, or_false, Prod.mk.injEq]
  constructor
  · rintro (⟨idx, hidx, ⟨ha, hb⟩ | ⟨ha, hb⟩⟩ | ⟨dr, hdr, dc, hdc, ha, hb⟩)
    · left
      omega
    · right
      left
      omega
    · right
      right
      omega
  · rintro (⟨hb, ha⟩ | ⟨ha, hb⟩ | ⟨h1, h2, h3, h4⟩)
    · exact Or.inl ⟨a, ha, Or.inl ⟨rfl, hb⟩⟩
    · exact Or.inl ⟨b, hb, Or.inr ⟨ha, rfl⟩⟩
    · exact Or.inr ⟨a - row / 3 * 3, by omega, b - col / 3 * 3, by omega, by omega, by omega⟩

theorem sameUnit_self (row col : Nat) (hr : row < 9) :
    SameUnit row col row col := Or.inl ⟨rfl, hr⟩

theorem sameUnit_bounds (row col a b : Nat) (hr : row < 9) (hc : col < 9)
    (h : SameUnit row col a b) : a < 9 ∧ b < 9 := by
  unfold SameUnit at h
  omega

theorem sameUnit_symm (row col a b : Nat) (hr : row < 9) (hc : col < 9)
    (ha : a < 9) (hb : b < 9) (h : SameUnit row col a b) :
    SameUnit a b row col := by
  unfold SameUnit at h ⊢
  omega

/-- Pointwise description of folding `drop_color` over a list of cells:
digit `i` stays available iff it was available and no visited cell holds
the non-zero value `i`. -/
theorem foldl_dropColor_spec (g : Grid) (ps : List (Nat × Nat)) :
    ∀ (a : Nat → Bool) (i : Nat),
      ((ps.foldl (fun acc q => dropColor g acc q.1 q.2) a) i = true ↔
        (a i = true ∧ ∀ q ∈ ps, ¬(getCell g q.1 q.2 = i ∧ i ≠ 0))) := by
  induction ps with
  | nil =>
    intro a i
    simp
  | cons q ps ih =>
    intro a i
    rw [List.foldl_cons, ih]
    unfold dropColor
    constructor
    · rintro ⟨hd, hrest⟩
      by_cases hc : getCell g q.1 q.2 ≠ 0
      · rw [if_pos hc] at hd
        by_cases hi : i = getCell g q.1 q.2
        · rw [if_pos hi] at hd
          cases hd
        · rw [if_neg hi] at hd
          refine ⟨hd, ?_⟩
          intro p hp
          rcases List.mem_cons.1 hp with hp | hp
          · subst hp
            intro ⟨he, _⟩
            exact hi he.symm
          · exact hrest p hp
      · rw [if_neg hc] at hd
        refine ⟨hd, ?_⟩
        intro p hp
        rcases List.mem_cons.1 hp with hp | hp
        · subst hp
          intro ⟨he, hne⟩
          push_neg at hc
          rw [hc] at he
          exact hne he.symm
        · exact hrest p hp
    · rintro ⟨hd, hall⟩
      constructor
      · by_cases hc : getCell g q.1 q.2 ≠ 0
        · rw [if_pos hc]
          have hq := hall q (List.mem_cons_self q ps)
          have hi : i ≠ getCell g q.1 q.2 := by
            intro he
            exact hq ⟨he.symm, by rw [he]; exact hc⟩
          rw [if_neg hi]
          exact hd
        · rw [if_neg hc]
          exact hd
      · intro p hp
        exact hall p (List.mem_cons_of_mem q hp)

/-- Availability after `drop_colors`. -/
theorem dropColors_spec (g : Grid) (avail : Nat → Bool) (row col i : Nat) :
    (dropColors g avail row col i = true ↔
      (avail i = true ∧ ∀ q ∈ scanCells row col, ¬(getCell g q.1 q.2 = i ∧ i ≠ 0))) := by
  unfold dropColors
  exact foldl_dropColor_spec g (scanCells row col) avail i

/-- `find?` over `range' s n` returns the smallest value in the range
satisfying the test, when it returns at all. -/
theorem find?_range'_spec (p : Nat → Bool) :
    ∀ (n s d : Nat), (List.range' s n).find? p = some d →
      p d = true ∧ s ≤ d ∧ d < s + n ∧ ∀ e, s ≤ e → e < d → p e = false := by
  intro n
  induction n with
  | zero =>
    intro s d h
    simp [List.range'] at h
  | succ n ih =>
    intro s d h
    rw [List.range'_succ] at h
    rw [List.find?_cons] at h
    rcases hp : p s with _ | _
    · rw [hp] at h
      simp only [Bool.false_eq_true, if_neg] at h
      rcases ih (s + 1) d h with ⟨h1, h2, h3, h4⟩
      refine ⟨h1, by omega, by omega, ?_⟩
      intro e he hed
      by_cases hes : e = s
      · subst hes
        exact hp
      · exact h4 e (by omega) hed
    · rw [hp] at h
      simp only [if_pos] at h
      injection h with h
      subst h
      exact ⟨hp, Nat.le_refl _, by omega, fun e he hed => absurd hed (by omega)⟩

/-- Full characterisation of `next_color`: it writes the smallest
candidate digit and reports `true`, or writes 0 and reports `false` when
no candidate exists (also covering `start ≥ 10`). -/
theorem nextColor_char (g : Grid) (row col start : Nat) :
    (∃ d, CandidateAt g row col start d ∧
      (∀ e, CandidateAt g row col start e → d ≤ e) ∧
      nextColor g row col start = (setCell g row col d, true)) ∨
    ((∀ d, ¬CandidateAt g row col start d) ∧
      nextColor g row col start = (setCell g row col 0, false)) := by
  by_cases hstart : start < 10
  · have havail : ∀ i, 1 ≤ i →
        (dropColors g (fun i => decide (start ≤ i ∧ i < 10)) row col i = true ↔
          (start ≤ i ∧ i < 10 ∧ ∀ q ∈ scanCells row col, getCell g q.1 q.2 ≠ i)) := by
      intro i hi
      rw [dropColors_spec]
      constructor
      · rintro ⟨h1, h2⟩
        have h1' : start ≤ i ∧ i < 10 := of_decide_eq_true h1
        refine ⟨h1'.1, h1'.2, ?_⟩
        intro q hq he
        exact h2 q hq ⟨he, by omega⟩
      · rintro ⟨h1, h2, h3⟩
        refine ⟨decide_eq_true ⟨h1, h2⟩, ?_⟩
        intro q hq ⟨he, _⟩
        exact h3 q hq he
    rcases hfind : (List.range' 1 9).find?
        (fun i => dropColors g (fun i => decide (start ≤ i ∧ i < 10)) row col i) with _ | d
    · right
      have hnone := List.find?_eq_none.1 hfind
      constructor
      · intro d ⟨h1, h2, h3, h4⟩
        have hd : d ∈ List.range' 1 9 := List.mem_range'_1.2 ⟨h1, by omega⟩
        exact hnone d hd ((havail d h1).2 ⟨h2, by omega, h4⟩)
      · unfold nextColor
        rw [if_pos hstart, hfind]
    · left
      have hspec := find?_range'_spec _ 9 1 d hfind
      rcases hspec with ⟨hpd, hd1, hd9, hmin⟩
      have hcand : CandidateAt g row col start d := by
        have := (havail d hd1).1 hpd
        exact ⟨hd1, this.1, by omega, this.2.2⟩
      refine ⟨d, hcand, ?_, ?_⟩
      · intro e he
        by_contra hlt
        push_neg at hlt
        have hfalse := hmin e he.1 hlt
        have htrue := (havail e he.1).2 ⟨he.2.1, by omega, he.2.2.2⟩
        rw [htrue] at hfalse
        cases hfalse
      · unfold nextColor
        rw [if_pos hstart, hfind]
  · right
    constructor
    · intro d ⟨_, h2, h3, _⟩
      omega
    · unfold nextColor
      rw [if_neg hstart]

theorem mem_buildWork (g : Grid) (a b : Nat) :
    (a, b) ∈ buildWork g ↔ a < 9 ∧ b < 9 ∧ getCell g a b = 0 := by
  unfold buildWork
  simp only [List.mem_flatMap, List.mem_range, List.mem_filterMap]
  constructor
  · rintro ⟨row, hrow, col, hcol, hif⟩
    by_cases h0 : getCell g row col = 0
    · rw [if_pos h0] at hif
      injection hif with hif
      injection hif with h1 h2
      subst h1; subst h2
      exact ⟨hrow, hcol, h0⟩
    · rw [if_neg h0] at hif
      cases hif
  · rintro ⟨ha, hb, h0⟩
    exact ⟨a, ha, b, hb, by rw [if_pos h0]⟩

theorem nodup_buildWork (g : Grid) : (buildWork g).Nodup := by
  unfold buildWork
  rw [List.nodup_flatMap]
  constructor
  · intro row _
    refine List.Nodup.filterMap ?_ (List.nodup_range 9)
    intro a a' b hb hb'
    simp only [Option.mem_def] at hb hb'
    by_cases h1 : getCell g row a = 0
    · by_cases h2 : getCell g row a' = 0
      · rw [if_pos h1] at hb
        rw [if_pos h2] at hb'
        injection hb with hb
        injection hb' with hb'
        rw [← hb'] at hb
        exact congrArg Prod.snd hb
      · rw [if_neg h2] at hb'
        cases hb'
    · rw [if_neg h1] at hb
      cases hb
  · refine List.Pairwise.imp ?_ (List.pairwise_lt_range 9)
    intro row row' hlt p hp hp'
    simp only [List.mem_filterMap, List.mem_range] at hp hp'
    rcases hp with ⟨c, _, hc⟩
    rcases hp' with ⟨c', _, hc'⟩
    by_cases h1 : getCell g row c = 0
    · by_cases h2 : getCell g row' c' = 0
      · rw [if_pos h1] at hc
        rw [if_pos h2] at hc'
        injection hc with hc
        injection hc' with hc'
        rw [← hc'] at hc
        injection hc with h3 h4
        omega
      · rw [if_neg h2] at hc'
        cases hc'
    · rw [if_neg h1] at hc
      cases hc

theorem buildWork_coords (g : Grid) (p : Nat × Nat) (hp : p ∈ buildWork g) :
    p.1 < 9 ∧ p.2 < 9 ∧ getCell g p.1 p.2 = 0 := by
  rcases p with ⟨a, b⟩
  exact (mem_buildWork g a b).1 hp

theorem getD_eq_get (l : List (Nat × Nat)) (i : Nat) (h : i < l.length) :
    l.getD i (0, 0) = l.get ⟨i, h⟩ := by
  rw [List.getD_eq_getElem?_getD, List.getElem?_eq_getElem h]
  rfl

theorem goodWork_buildWork (g : Grid) : GoodWork (buildWork g) :=
  ⟨nodup_buildWork g, fun q hq => ⟨(buildWork_coords g q hq).1, (buildWork_coords g q hq).2.1⟩⟩

theorem InvW_init (g : Grid) (hwf : WF g) (h9 : CellsLe9 g) :
    InvW (buildWork g) g 0 := by
  have hmem : ∀ i, i < (buildWork g).length → (buildWork g).getD i (0, 0) ∈ buildWork g := by
    intro i hi
    rw [getD_eq_get _ i hi]
    exact List.get_mem _ i hi
  refine ⟨hwf, fun r c => getCell_le9 g h9 hwf r c, Nat.zero_le _, ?_, ?_, ?_⟩
  · intro i hi
    omega
  · intro i _ hi
    exact (buildWork_coords g _ (hmem i hi)).2.2
  · intro hlen
    exact Or.inl ((buildWork_coords g _ (hmem 0 hlen)).2.2)

/-- Writing a fresh value at `(R, C)` keeps any other consistent cell
consistent, provided the new value conflicts with nothing in the
neighbourhood of `(R, C)` (or is 0). -/
theorem Consistent_after_set (g : Grid) (hwf : WF g) (R C x a b : Nat)
    (hR : R < 9) (hC : C < 9) (ha : a < 9) (hb : b < 9)
    (hne : (a, b) ≠ (R, C))
    (hx : x = 0 ∨ ∀ q ∈ scanCells R C, getCell g q.1 q.2 ≠ x)
    (hcons : Consistent g a b) : Consistent (setCell g R C x) a b := by
  have hval : getCell (setCell g R C x) a b = getCell g a b :=
    getCell_setCell_ne g R C x a b hne
  refine ⟨by rw [hval]; exact hcons.1, by rw [hval]; exact hcons.2.1, ?_⟩
  intro q hq hqne
  rw [hval]
  by_cases hqRC : q = (R, C)
  · subst hqRC
    rw [getCell_setCell_same g hwf R C x (by omega) (by omega)]
    rcases hx with hx0 | hscan
    · subst hx0
      intro h0
      have := hcons.1
      omega
    · have hsu : SameUnit a b R C := (mem_scanCells a b R C).1 hq
      have hsu' : SameUnit R C a b := sameUnit_symm a b R C ha hb hR hC hsu
      have hmem : (a, b) ∈ scanCells R C := (mem_scanCells R C a b).2 hsu'
      intro he
      exact hscan (a, b) hmem he.symm
  · rw [getCell_setCell_ne g R C x q.1 q.2 (by rcases q with ⟨q1, q2⟩; exact hqRC)]
    exact hcons.2.2 q hq hqne

/-- The new cell written by a successful `next_color` is itself
consistent. -/
theorem Consistent_of_write (g : Grid) (hwf : WF g) (R C d : Nat)
    (hR : R < 9) (hC : C < 9) (hd1 : 1 ≤ d) (hd9 : d ≤ 9)
    (hscan : ∀ q ∈ scanCells R C, getCell g q.1 q.2 ≠ d) :
    Consistent (setCell g R C d) R C := by
  have hval : getCell (setCell g R C d) R C = d :=
    getCell_setCell_same g hwf R C d (by omega) (by omega)
  refine ⟨by rw [hval]; exact hd1, by rw [hval]; exact hd9, ?_⟩
  intro q hq hqne
  rw [hval,
    getCell_setCell_ne g R C d q.1 q.2 (by rcases q with ⟨q1, q2⟩; exact hqne)]
  exact hscan q hq

/-- Unfolding equation of `stepF` at an in-range cursor. -/
theorem stepF_eq_of_lt (work : List (Nat × Nat)) (g : Grid) (p : Nat)
    (h : p < work.length) :
    stepF work g p =
      if (nextColor g (work.get ⟨p, h⟩).1 (work.get ⟨p, h⟩).2
          (getCell g (work.get ⟨p, h⟩).1 (work.get ⟨p, h⟩).2 + 1)).2 then
        StepRes.cont (nextColor g (work.get ⟨p, h⟩).1 (work.get ⟨p, h⟩).2
          (getCell g (work.get ⟨p, h⟩).1 (work.get ⟨p, h⟩).2 + 1)).1 (p + 1)
      else if p = 0 then StepRes.failed
      else StepRes.cont (nextColor g (work.get ⟨p, h⟩).1 (work.get ⟨p, h⟩).2
          (getCell g (work.get ⟨p, h⟩).1 (work.get ⟨p, h⟩).2 + 1)).1 (p - 1) := by
  unfold stepF
  rw [dif_pos h]

theorem stepF_eq_of_ge (work : List (Nat × Nat)) (g : Grid) (p : Nat)
    (h : ¬p < work.length) : stepF work g p = StepRes.done g := by
  unfold stepF
  rw [dif_neg h]

/-- Case analysis of a `cont` step: the cursor was in range and the step
either wrote the least candidate `d` at the cursor cell and advanced, or
wrote 0 and retreated (with `p ≠ 0`). -/
theorem stepF_cont_cases (work : List (Nat × Nat)) (g : Grid) (p : Nat)
    (g' : Grid) (p' : Nat) (hstep : stepF work g p = StepRes.cont g' p') :
    ∃ h : p < work.length,
      (∃ d, CandidateAt g (work.get ⟨p, h⟩).1 (work.get ⟨p, h⟩).2
            (getCell g (work.get ⟨p, h⟩).1 (work.get ⟨p, h⟩).2 + 1) d ∧
          (∀ e, CandidateAt g (work.get ⟨p, h⟩).1 (work.get ⟨p, h⟩).2
            (getCell g (work.get ⟨p, h⟩).1 (work.get ⟨p, h⟩).2 + 1) e → d ≤ e) ∧
          g' = setCell g (work.get ⟨p, h⟩).1 (work.get ⟨p, h⟩).2 d ∧ p' = p + 1) ∨
        ((∀ d, ¬CandidateAt g (work.get ⟨p, h⟩).1 (work.get ⟨p, h⟩).2
            (getCell g (work.get ⟨p, h⟩).1 (work.get ⟨p, h⟩).2 + 1) d) ∧
          g' = setCell g (work.get ⟨p, h⟩).1 (work.get ⟨p, h⟩).2 0 ∧
          p ≠ 0 ∧ p' = p - 1) := by
  by_cases h : p < work.length
  · refine ⟨h, ?_⟩
    rw [stepF_eq_of_lt work g p h] at hstep
    rcases nextColor_char g (work.get ⟨p, h⟩).1 (work.get ⟨p, h⟩).2
        (getCell g (work.get ⟨p, h⟩).1 (work.get ⟨p, h⟩).2 + 1) with
      ⟨d, hcand, hmin, heq⟩ | ⟨hnone, heq⟩
    · rw [heq] at hstep
      simp only [if_pos] at hstep
      injection hstep with h1 h2
      exact Or.inl ⟨d, hcand, hmin, h1.symm, h2.symm⟩
    · rw [heq] at hstep
      simp only [Bool.false_eq_true, if_neg] at hstep
      by_cases hp0 : p = 0
      · rw [if_pos hp0] at hstep
        cases hstep
      · rw [if_neg hp0] at hstep
        injection hstep with h1 h2
        exact Or.inr ⟨hnone, h1.symm, hp0, h2.symm⟩
  · rw [stepF_eq_of_ge work g p h] at hstep
    cases hstep

theorem work_get_ne (work : List (Nat × Nat)) (hnodup : work.Nodup) (p i : Nat)
    (hp : p < work.length) (hi : i < work.length) (hne : i ≠ p) :
    work.get ⟨i, hi⟩ ≠ work.get ⟨p, hp⟩ := by
  intro he
  have := (List.Nodup.get_inj_iff hnodup).1 he
  rw [Fin.mk.injEq] at this
  exact hne this

theorem workVal_set_ne (work : List (Nat × Nat)) (hnodup : work.Nodup)
    (g : Grid) (x p i : Nat) (hp : p < work.length) (hi : i < work.length)
    (hne : i ≠ p) :
    workVal work (setCell g (work.get ⟨p, hp⟩).1 (work.get ⟨p, hp⟩).2 x) i =
      workVal work g i := by
  unfold workVal
  apply getCell_setCell_ne
  rw [getD_eq_get work i hi, Prod.mk.eta]
  exact work_get_ne work hnodup p i hp hi hne

/-- One `cont` step of the driver preserves the invariant. -/
theorem stepF_preserves (work : List (Nat × Nat)) (g : Grid) (p : Nat)
    (g' : Grid) (p' : Nat) (hgw : GoodWork work) (hinv : InvW work g p)
    (hstep : stepF work g p = StepRes.cont g' p') : InvW work g' p' := by
  rcases hinv with ⟨hwf, hle9, hple, hassigned, hafter, hatp⟩
  rcases stepF_cont_cases work g p g' p' hstep with ⟨h, hcase⟩
  have hRmem : work.get ⟨p, h⟩ ∈ work := List.get_mem work p h
  have hR9 : (work.get ⟨p, h⟩).1 < 9 := (hgw.2 _ hRmem).1
  have hC9 : (work.get ⟨p, h⟩).2 < 9 := (hgw.2 _ hRmem).2
  have hWmem : ∀ i, i < work.length → (work.getD i (0, 0)) ∈ work := by
    intro i hi
    rw [getD_eq_get work i hi]
    exact List.get_mem work i hi
  rcases hcase with ⟨d, ⟨hd1, hdstart, hd9, hscan⟩, hmin, hg', hp'⟩ |
      ⟨hnone, hg', hp0, hp'⟩
  · -- forward step: the least candidate d was written at the cursor cell
    subst hg'; subst hp'
    refine ⟨WF_setCell g hwf _ _ _, ?_, by omega, ?_, ?_, ?_⟩
    · intro r c
      by_cases hrc : (r, c) = ((work.get ⟨p, h⟩).1, (work.get ⟨p, h⟩).2)
      · injection hrc with h1 h2
        subst h1; subst h2
        rw [getCell_setCell_same g hwf _ _ d (by omega) (by omega)]
        exact hd9
      · rw [getCell_setCell_ne g _ _ d r c hrc]
        exact hle9 r c
    · intro i hi
      by_cases hip : i = p
      · subst hip
        rw [getD_eq_get work i h]
        exact Consistent_of_write g hwf _ _ d hR9 hC9 hd1 hd9 hscan
      · have hi' : i < work.length := by omega
        have hiW := hWmem i hi'
        refine Consistent_after_set g hwf _ _ d _ _ hR9 hC9
          (hgw.2 _ hiW).1 (hgw.2 _ hiW).2 ?_ (Or.inr hscan) (hassigned i (by omega))
        rw [Prod.mk.eta, getD_eq_get work i hi']
        exact work_get_ne work hgw.1 p i h hi' hip
    · intro i hi1 hi2
      rw [workVal_set_ne work hgw.1 g d p i h hi2 (by omega)]
      exact hafter i (by omega) hi2
    · intro hlen
      left
      rw [workVal_set_ne work hgw.1 g d p (p + 1) h hlen (by omega)]
      exact hafter (p + 1) (by omega) hlen
  · -- backward step: the cursor cell was reset to 0 and the cursor retreats
    subst hg'; subst hp'
    refine ⟨WF_setCell g hwf _ _ _, ?_, by omega, ?_, ?_, ?_⟩
    · intro r c
      by_cases hrc : (r, c) = ((work.get ⟨p, h⟩).1, (work.get ⟨p, h⟩).2)
      · injection hrc with h1 h2
        subst h1; subst h2
        rw [getCell_setCell_same g hwf _ _ 0 (by omega) (by omega)]
        omega
      · rw [getCell_setCell_ne g _ _ 0 r c hrc]
        exact hle9 r c
    · intro i hi
      have hi' : i < work.length := by omega
      have hiW := hWmem i hi'
      refine Consistent_after_set g hwf _ _ 0 _ _ hR9 hC9
        (hgw.2 _ hiW).1 (hgw.2 _ hiW).2 ?_ (Or.inl rfl) (hassigned i (by omega))
      rw [Prod.mk.eta, getD_eq_get work i hi']
      exact work_get_ne work hgw.1 p i h hi' (by omega)
    · intro i hi1 hi2
      by_cases hip : i = p
      · subst hip
        unfold workVal
        rw [getD_eq_get work i h]
        exact getCell_setCell_same g hwf _ _ 0 (by omega) (by omega)
      · rw [workVal_set_ne work hgw.1 g 0 p i h hi2 hip]
        exact hafter i (by omega) hi2
    · intro hlen
      right
      have hp1 : p - 1 < p := by omega
      have hi' : p - 1 < work.length := by omega
      have hiW := hWmem (p - 1) hi'
      refine Consistent_after_set g hwf _ _ 0 _ _ hR9 hC9
        (hgw.2 _ hiW).1 (hgw.2 _ hiW).2 ?_ (Or.inl rfl) (hassigned (p - 1) hp1)
      rw [Prod.mk.eta, getD_eq_get work (p - 1) hi']
      exact work_get_ne work hgw.1 p (p - 1) h hi' (by omega)

theorem base11_cons (d : Nat) (ds : List Nat) :
    base11 (d :: ds) = d * 11 ^ ds.length + base11 ds := rfl

theorem base11_append (l1 l2 : List Nat) :
    base11 (l1 ++ l2) = base11 l1 * 11 ^ l2.length + base11 l2 := by
  induction l1 with
  | nil => simp [base11]
  | cons d l1 ih =>
    rw [List.cons_append, base11_cons, base11_cons, ih, List.length_append,
      Nat.add_mul, Nat.mul_assoc, ← pow_add]
    omega

theorem base11_replicate0 (n : Nat) : base11 (List.replicate n 0) = 0 := by
  induction n with
  | zero => rfl
  | succ n ih => rw [List.replicate_succ, base11_cons, ih]; omega

theorem base11_le (l : List Nat) (h : ∀ d ∈ l, d ≤ 10) :
    base11 l ≤ 11 ^ l.length - 1 := by
  induction l with
  | nil => simp [base11]
  | cons d ds ih =>
    rw [base11_cons]
    have hd : d ≤ 10 := h d (List.mem_cons_self d ds)
    have hds := ih (fun e he => h e (List.mem_cons_of_mem d he))
    have hp : 1 ≤ 11 ^ ds.length := Nat.one_le_pow _ 11 (by omega)
    have hmul : d * 11 ^ ds.length ≤ 10 * 11 ^ ds.length :=
      Nat.mul_le_mul_right _ hd
    have hsucc : (11 : Nat) ^ (ds.length + 1) = 11 ^ ds.length * 11 := pow_succ 11 _
    simp only [List.length_cons]
    omega

theorem key_le (work : List (Nat × Nat)) (g : Grid) (p : Nat)
    (hp : p ≤ work.length) (h9 : ∀ r c, getCell g r c ≤ 9) :
    key work g p ≤ 11 ^ work.length := by
  have hd10 : ∀ d ∈ keyDigits work g p, d ≤ 10 := by
    intro d hd
    unfold keyDigits at hd
    rcases List.mem_append.1 hd with hd | hd
    · rcases List.mem_map.1 hd with ⟨i, _, hi⟩
      have : workVal work g i ≤ 9 := h9 _ _
      omega
    · by_cases hlt : p < work.length
      · rw [if_pos hlt] at hd
        rcases List.mem_cons.1 hd with hd | hd
        · have : workVal work g p ≤ 9 := h9 _ _
          omega
        · have := List.eq_of_mem_replicate hd
          omega
      · rw [if_neg hlt] at hd
        cases hd
  have hlen : (keyDigits work g p).length = work.length := by
    unfold keyDigits
    rw [List.length_append, List.length_map, List.length_range]
    by_cases hlt : p < work.length
    · rw [if_pos hlt]
      simp only [List.length_cons, List.length_replicate]
      omega
    · rw [if_neg hlt]
      simp only [List.length_nil]
      omega
  have hb := base11_le (keyDigits work g p) hd10
  rw [hlen] at hb
  have hp1 : 1 ≤ 11 ^ work.length := Nat.one_le_pow _ 11 (by omega)
  unfold key
  by_cases hlt : p < work.length
  · rw [if_pos hlt]
    omega
  · rw [if_neg hlt]
    omega

/-- The termination key strictly increases at every `cont` step. -/
theorem key_increase (work : List (Nat × Nat)) (g : Grid) (p : Nat)
    (g' : Grid) (p' : Nat) (hgw : GoodWork work) (hinv : InvW work g p)
    (hstep : stepF work g p = StepRes.cont g' p') :
    key work g p + 1 ≤ key work g' p' := by
  rcases hinv with ⟨hwf, hle9, hple, _, _, _⟩
  rcases stepF_cont_cases work g p g' p' hstep with ⟨h, hcase⟩
  have hRmem : work.get ⟨p, h⟩ ∈ work := List.get_mem work p h
  have hR9 : (work.get ⟨p, h⟩).1 < 9 := (hgw.2 _ hRmem).1
  have hC9 : (work.get ⟨p, h⟩).2 < 9 := (hgw.2 _ hRmem).2
  have hcursor : workVal work g p = getCell g (work.get ⟨p, h⟩).1 (work.get ⟨p, h⟩).2 := by
    unfold workVal
    rw [getD_eq_get work p h]
  rcases hcase with ⟨d, ⟨hd1, hdstart, hd9, hscan⟩, _, hg', hp'⟩ |
      ⟨hnone, hg', hp0, hp'⟩
  · -- forward step
    subst hp'
    rw [hg']
    set G := setCell g (work.get ⟨p, h⟩).1 (work.get ⟨p, h⟩).2 d with hGdef
    have hprefix : (List.range p).map (workVal work G) = (List.range p).map (workVal work g) := by
      refine List.map_congr_left ?_
      intro i hi
      rw [List.mem_range] at hi
      exact workVal_set_ne work hgw.1 g d p i h (by omega) (by omega)
    have hvd : workVal work G p = d := by
      unfold workVal
      rw [getD_eq_get work p h, hGdef]
      exact getCell_setCell_same g hwf _ _ d (by omega) (by omega)
    have hvstart : workVal work g p + 1 ≤ d := by
      rw [hcursor]
      exact hdstart
    have hsplit : (List.range (p + 1)).map (workVal work G) =
        (List.range p).map (workVal work g) ++ [d] := by
      rw [List.range_succ, List.map_append, hprefix, List.map_singleton, hvd]
    by_cases hlt : p + 1 < work.length
    · -- still inside the loop after advancing
      unfold key keyDigits
      rw [if_pos h, if_pos hlt, if_pos h, if_pos hlt, hsplit]
      set A := (List.range p).map (workVal work g) with hA
      set w := workVal work G (p + 1) with hw
      set n := work.length - p - 1 with hn
      have hn1 : 1 ≤ n := by omega
      rw [List.append_assoc A [d]]
      rw [base11_append A ([d] ++ (w + 1) :: List.replicate (work.length - (p + 1) - 1) 0),
        base11_append A ((workVal work g p + 1) :: List.replicate n 0)]
      have hlen1 : ([d] ++ (w + 1) :: List.replicate (work.length - (p + 1) - 1) 0).length = n + 1 := by
        simp only [List.length_append, List.length_cons, List.length_nil,
          List.length_replicate]
        omega
      have hlen2 : ((workVal work g p + 1) :: List.replicate n 0).length = n + 1 := by
        simp only [List.length_cons, List.length_replicate]
      rw [hlen1, hlen2]
      have hb1 : base11 ([d] ++ (w + 1) :: List.replicate (work.length - (p + 1) - 1) 0) =
          d * 11 ^ n + ((w + 1) * 11 ^ (n - 1)) := by
        have hn' : work.length - (p + 1) - 1 = n - 1 := by omega
        have hpow : (11 : Nat) ^ (n - 1 + 1) = 11 ^ n := by
          rw [show n - 1 + 1 = n from by omega]
        rw [List.singleton_append, base11_cons, base11_cons, base11_replicate0,
          List.length_cons, List.length_replicate, hn', hpow]
        omega
      have hb2 : base11 ((workVal work g p + 1) :: List.replicate n 0) =
          (workVal work g p + 1) * 11 ^ n := by
        rw [base11_cons, base11_replicate0, List.length_replicate]
        omega
      rw [hb1, hb2]
      have hmul : (workVal work g p + 1) * 11 ^ n ≤ d * 11 ^ n :=
        Nat.mul_le_mul_right _ hvstart
      have hpos : 1 ≤ (w + 1) * 11 ^ (n - 1) :=
        Nat.one_le_iff_ne_zero.2 (Nat.mul_ne_zero (by omega)
          (Nat.pos_iff_ne_zero.1 (Nat.pos_pow_of_pos _ (by omega))))
      omega
    · -- the advance finished the loop: p + 1 = work.length
      have hpeq : p + 1 = work.length := by omega
      unfold key keyDigits
      rw [if_pos h, if_neg hlt, if_pos h, if_neg hlt, hsplit]
      have hzeros : work.length - p - 1 = 0 := by omega
      rw [hzeros]
      simp only [List.replicate_zero, List.append_nil]
      rw [base11_append, base11_append]
      simp only [List.length_cons, List.length_nil, List.length_singleton, base11_cons]
      have : base11 ([] : List Nat) = 0 := rfl
      rw [this]
      have h1 : base11 [d] = d := by
        rw [base11_cons]
        simp [base11]
      omega
  · -- backward step
    subst hp'
    rw [hg']
    set G := setCell g (work.get ⟨p, h⟩).1 (work.get ⟨p, h⟩).2 0 with hGdef
    have hp1 : 1 ≤ p := by omega
    have hprefix : (List.range (p - 1)).map (workVal work G) =
        (List.range (p - 1)).map (workVal work g) := by
      refine List.map_congr_left ?_
      intro i hi
      rw [List.mem_range] at hi
      exact workVal_set_ne work hgw.1 g 0 p i h (by omega) (by omega)
    have hu : workVal work G (p - 1) = workVal work g (p - 1) :=
      workVal_set_ne work hgw.1 g 0 p (p - 1) h (by omega) (by omega)
    have hsplitp : (List.range p).map (workVal work g) =
        (List.range (p - 1)).map (workVal work g) ++ [workVal work g (p - 1)] := by
      conv_lhs => rw [show p = (p - 1) + 1 by omega]
      rw [List.range_succ, List.map_append, List.map_singleton]
    have hplt : p - 1 < work.length := by omega
    unfold key keyDigits
    rw [if_pos h, if_pos hplt, if_pos h, if_pos hplt, hsplitp, hprefix, hu]
    set A := (List.range (p - 1)).map (workVal work g) with hA
    set u := workVal work g (p - 1) with hu2
    set v := workVal work g p with hv
    set m := work.length - p - 1 with hm
    rw [List.append_assoc A [u]]
    rw [base11_append A ([u] ++ (v + 1) :: List.replicate m 0),
      base11_append A ((u + 1) :: List.replicate (work.length - (p - 1) - 1) 0)]
    have hm1 : work.length - (p - 1) - 1 = m + 1 := by omega
    rw [hm1]
    have hlen1 : ([u] ++ (v + 1) :: List.replicate m 0).length = m + 2 := by
      simp only [List.length_append, List.length_cons, List.length_nil,
        List.length_replicate]
      omega
    have hlen2 : ((u + 1) :: List.replicate (m + 1) 0).length = m + 2 := by
      simp only [List.length_cons, List.length_replicate]
    rw [hlen1, hlen2]
    have hb1 : base11 ([u] ++ (v + 1) :: List.replicate m 0) =
        u * 11 ^ (m + 1) + ((v + 1) * 11 ^ m) := by
      rw [List.singleton_append, base11_cons, base11_cons, base11_replicate0,
        List.length_cons, List.length_replicate]
      omega
    have hb2 : base11 ((u + 1) :: List.replicate (m + 1) 0) =
        (u + 1) * 11 ^ (m + 1) := by
      rw [base11_cons, base11_replicate0, List.length_replicate]
      omega
    rw [hb1, hb2]
    have hv9 : v ≤ 9 := hle9 _ _
    have hppos : 1 ≤ 11 ^ m := Nat.one_le_pow _ 11 (by omega)
    have hvmul : (v + 1) * 11 ^ m ≤ 10 * 11 ^ m := Nat.mul_le_mul_right _ (by omega)
    have hsucc : (11 : Nat) ^ (m + 1) = 11 ^ m * 11 := pow_succ 11 m
    have hdist : (u + 1) * 11 ^ (m + 1) = u * 11 ^ (m + 1) + 11 ^ (m + 1) := by ring
    omega

theorem run_succ (work : List (Nat × Nat)) (fuel : Nat) (g : Grid) (p : Nat) :
    run work (fuel + 1) g p =
      match stepF work g p with
      | StepRes.done g' => Outcome.ok g'
      | StepRes.failed => Outcome.unsolvable
      | StepRes.cont g' p' => run work fuel g' p' := rfl

theorem stepF_done_cases (work : List (Nat × Nat)) (g : Grid) (p : Nat)
    (g'' : Grid) (h : stepF work g p = StepRes.done g'') :
    ¬p < work.length ∧ g'' = g := by
  by_cases hp : p < work.length
  · rw [stepF_eq_of_lt work g p hp] at h
    split_ifs at h <;> cases h
  · rw [stepF_eq_of_ge work g p hp] at h
    injection h with h
    exact ⟨hp, h.symm⟩

theorem stepF_failed_cases (work : List (Nat × Nat)) (g : Grid) (p : Nat)
    (h : stepF work g p = StepRes.failed) : p = 0 ∧ p < work.length := by
  by_cases hp : p < work.length
  · rw [stepF_eq_of_lt work g p hp] at h
    by_cases hb : (nextColor g (work.get ⟨p, hp⟩).1 (work.get ⟨p, hp⟩).2
        (getCell g (work.get ⟨p, hp⟩).1 (work.get ⟨p, hp⟩).2 + 1)).2
    · rw [if_pos hb] at h
      cases h
    · rw [if_neg hb] at h
      by_cases hp0 : p = 0
      · exact ⟨hp0, hp⟩
      · rw [if_neg hp0] at h
        cases h
  · rw [stepF_eq_of_ge work g p hp] at h
    cases h

/-- With enough fuel relative to the key, the loop never exhausts its
fuel: this is the termination argument for `solve_grid`. -/
theorem run_ne_fuelOut (work : List (Nat × Nat)) (hgw : GoodWork work) :
    ∀ (fuel : Nat) (g : Grid) (p : Nat), InvW work g p →
      11 ^ work.length < key work g p + fuel →
      run work fuel g p ≠ Outcome.fuelOut := by
  intro fuel
  induction fuel with
  | zero =>
    intro g p hinv hkey
    have hle := key_le work g p hinv.2.2.1 hinv.2.1
    omega
  | succ fuel ih =>
    intro g p hinv hkey
    rw [run_succ]
    cases hstep : stepF work g p with
    | done g' => simp
    | failed => simp
    | cont g' p' =>
      simp only
      have hinv' := stepF_preserves work g p g' p' hgw hinv hstep
      have hkey' := key_increase work g p g' p' hgw hinv hstep
      exact ih g' p' hinv' (by omega)

/-- A normal return of the loop reaches the accepting state
`p = work.length` with the invariant intact. -/
theorem run_ok_inv (work : List (Nat × Nat)) (hgw : GoodWork work) :
    ∀ (fuel : Nat) (g : Grid) (p : Nat) (g' : Grid), InvW work g p →
      run work fuel g p = Outcome.ok g' → InvW work g' work.length := by
  intro fuel
  induction fuel with
  | zero =>
    intro g p g' _ hrun
    cases hrun
  | succ fuel ih =>
    intro g p g' hinv hrun
    rw [run_succ] at hrun
    cases hstep : stepF work g p with
    | done g'' =>
      rw [hstep] at hrun
      injection hrun with hrun
      rcases stepF_done_cases work g p g'' hstep with ⟨hge, hgg⟩
      have hp : p = work.length := by
        have := hinv.2.2.1
        omega
      subst hrun
      rw [hgg, ← hp]
      exact hinv
    | failed =>
      rw [hstep] at hrun
      cases hrun
    | cont g'' p'' =>
      rw [hstep] at hrun
      exact ih g'' p'' g' (stepF_preserves work g p g'' p'' hgw hinv hstep) hrun

/-- The loop only ever writes to work-list cells. -/
theorem run_ok_frame (work : List (Nat × Nat)) :
    ∀ (fuel : Nat) (g : Grid) (p : Nat) (g' : Grid),
      run work fuel g p = Outcome.ok g' →
      ∀ r c, (r, c) ∉ work → getCell g' r c = getCell g r c := by
  intro fuel
  induction fuel with
  | zero =>
    intro g p g' hrun
    cases hrun
  | succ fuel ih =>
    intro g p g' hrun r c hmem
    rw [run_succ] at hrun
    cases hstep : stepF work g p with
    | done g'' =>
      rw [hstep] at hrun
      injection hrun with hrun
      rcases stepF_done_cases work g p g'' hstep with ⟨_, hgg⟩
      rw [← hrun, hgg]
    | failed =>
      rw [hstep] at hrun
      cases hrun
    | cont g'' p'' =>
      rw [hstep] at hrun
      have hrest := ih g'' p'' g' hrun r c hmem
      rcases stepF_cont_cases work g p g'' p'' hstep with ⟨h, hcase⟩
      have hRmem : work.get ⟨p, h⟩ ∈ work := List.get_mem work p h
      have hne : (r, c) ≠ ((work.get ⟨p, h⟩).1, (work.get ⟨p, h⟩).2) := by
        intro he
        rw [he, Prod.mk.eta] at hmem
        exact hmem hRmem
      rcases hcase with ⟨d, _, _, hg', _⟩ | ⟨_, hg', _, _⟩
      · rw [hrest, hg', getCell_setCell_ne g _ _ d r c hne]
      · rw [hrest, hg', getCell_setCell_ne g _ _ 0 r c hne]

/-- `solve_grid` never runs out of model fuel: the search always
terminates in `ok` or `unsolvable`. -/
theorem solveGrid_not_fuelOut (g : Grid) (hwf : WF g) (h9 : CellsLe9 g) :
    solveGrid g ≠ Outcome.fuelOut := by
  unfold solveGrid
  exact run_ne_fuelOut (buildWork g) (goodWork_buildWork g) _ g 0
    (InvW_init g hwf h9) (by omega)

theorem solveGrid_ok_inv (g g' : Grid) (hwf : WF g) (h9 : CellsLe9 g)
    (hok : solveGrid g = Outcome.ok g') :
    InvW (buildWork g) g' (buildWork g).length :=
  run_ok_inv (buildWork g) (goodWork_buildWork g) _ g 0 g' (InvW_init g hwf h9) hok

theorem solveGrid_ok_frame (g g' : Grid) (hok : solveGrid g = Outcome.ok g') :
    ∀ r c, (r, c) ∉ buildWork g → getCell g' r c = getCell g r c :=
  run_ok_frame (buildWork g) _ g 0 g' hok

theorem perm_digits_of (l : List Nat) (hlen : l.length = 9) (hnodup : l.Nodup)
    (hsub : ∀ x ∈ l, 1 ≤ x ∧ x ≤ 9) : l.Perm (List.range' 1 9) := by
  have hnr : (List.range' 1 9).Nodup := by decide
  refine List.perm_of_nodup_nodup_toFinset_eq hnodup hnr ?_
  refine Finset.eq_of_subset_of_card_le ?_ ?_
  · intro x hx
    rw [List.mem_toFinset] at hx ⊢
    rcases hsub x hx with ⟨h1, h2⟩
    exact List.mem_range'_1.2 ⟨h1, by omega⟩
  · rw [List.toFinset_card_of_nodup hnodup, List.toFinset_card_of_nodup hnr, hlen]
    decide

/-- Any family of 9 pairwise-distinct in-bounds cells lying in a common
unit of a grid whose cells are all consistent carries a permutation of
1–9. -/
theorem unit_perm (g : Grid) (φ : Nat → Nat × Nat)
    (hin : ∀ i, i < 9 → (φ i).1 < 9 ∧ (φ i).2 < 9)
    (hinj : ∀ i j, i < 9 → j < 9 → φ i = φ j → i = j)
    (hsame : ∀ i j, i < 9 → j < 9 → SameUnit (φ i).1 (φ i).2 (φ j).1 (φ j).2)
    (hAll : ∀ r c, r < 9 → c < 9 → Consistent g r c) :
    ((List.range 9).map (fun i => getCell g (φ i).1 (φ i).2)).Perm
      (List.range' 1 9) := by
  have hdistinct : ∀ i j, i < 9 → j < 9 → i ≠ j →
      getCell g (φ i).1 (φ i).2 ≠ getCell g (φ j).1 (φ j).2 := by
    intro i j hi hj hij
    have hci := hAll (φ i).1 (φ i).2 (hin i hi).1 (hin i hi).2
    have hmem : ((φ j).1, (φ j).2) ∈ scanCells (φ i).1 (φ i).2 :=
      (mem_scanCells _ _ _ _).2 (hsame i j hi hj)
    have hne : ((φ j).1, (φ j).2) ≠ ((φ i).1, (φ i).2) := by
      intro he
      injection he with h1 h2
      exact hij (hinj i j hi hj (Prod.ext h1.symm h2.symm))
    intro he
    exact hci.2.2 _ hmem hne he.symm
  refine perm_digits_of _ (by simp) ?_ ?_
  · refine List.Nodup.map_on ?_ (List.nodup_range 9)
    intro i hi j hj he
    rw [List.mem_range] at hi hj
    by_contra hij
    exact hdistinct i j hi hj hij he
  · intro x hx
    rcases List.mem_map.1 hx with ⟨i, hi, hxi⟩
    rw [List.mem_range] at hi
    have hci := hAll (φ i).1 (φ i).2 (hin i hi).1 (hin i hi).2
    rw [← hxi]
    exact ⟨hci.1, hci.2.1⟩

/-- Every cell of every unit is consistent implies the grid is a complete
valid solution. -/
theorem validSolution_of_all_consistent (g : Grid)
    (hAll : ∀ r c, r < 9 → c < 9 → Consistent g r c) : ValidSolution g := by
  refine ⟨?_, ?_, ?_⟩
  · intro r hr
    exact unit_perm g (fun c => (r, c)) (fun i hi => ⟨hr, hi⟩)
      (fun i j _ _ he => congrArg Prod.snd he)
      (fun i j _ hj => Or.inr (Or.inl ⟨rfl, hj⟩)) hAll
  · intro c hc
    exact unit_perm g (fun r => (r, c)) (fun i hi => ⟨hi, hc⟩)
      (fun i j _ _ he => congrArg Prod.fst he)
      (fun i j _ hj => Or.inl ⟨rfl, hj⟩) hAll
  · intro br hbr bc hbc
    refine unit_perm g (fun k => (3 * br + k / 3, 3 * bc + k % 3)) ?_ ?_ ?_ hAll
    · intro i hi
      constructor <;> simp only <;> omega
    · intro i j hi hj he
      injection he with h1 h2
      omega
    · intro i j hi hj
      right; right
      simp only
      constructor
      · omega
      constructor
      · omega
      constructor
      · omega
      · omega

/-- At the accepting state every cell of the 9×9 board is consistent,
provided the givens were compatible. -/
theorem exit_all_consistent (g0 g' : Grid) (h90 : CellsLe9 g0)
    (hgiv : GivensOK g0)
    (hinv : InvW (buildWork g0) g' (buildWork g0).length)
    (hframe : ∀ r c, (r, c) ∉ buildWork g0 → getCell g' r c = getCell g0 r c) :
    ∀ r c, r < 9 → c < 9 → Consistent g' r c := by
  have hworkCons : ∀ r c, r < 9 → c < 9 → getCell g0 r c = 0 → Consistent g' r c := by
    intro r c hr hc h0
    have hmem : (r, c) ∈ buildWork g0 := (mem_buildWork g0 r c).2 ⟨hr, hc, h0⟩
    rcases List.mem_iff_get.1 hmem with ⟨⟨i, hi⟩, hget⟩
    have := hinv.2.2.2.1 i hi
    rw [getD_eq_get _ i hi, hget] at this
    exact this
  intro r c hr hc
  by_cases h0 : getCell g0 r c = 0
  · exact hworkCons r c hr hc h0
  · have hnw : (r, c) ∉ buildWork g0 := by
      intro hmem
      exact h0 ((mem_buildWork g0 r c).1 hmem).2.2
    have hval : getCell g' r c = getCell g0 r c := hframe r c hnw
    refine ⟨by omega, by rw [hval]; exact h90 r (by omega) c (by omega), ?_⟩
    intro q hq hqne
    rcases q with ⟨a, b⟩
    have hsu : SameUnit r c a b := (mem_scanCells r c a b).1 hq
    rcases sameUnit_bounds r c a b hr hc hsu with ⟨ha, hb⟩
    by_cases hq0 : getCell g0 a b = 0
    · -- the conflicting cell is a work cell: use its own consistency
      have hqc : Consistent g' a b := hworkCons a b ha hb hq0
      have hmem' : (r, c) ∈ scanCells a b :=
        (mem_scanCells a b r c).2 (sameUnit_symm r c a b hr hc ha hb hsu)
      have hne' : (r, c) ≠ (a, b) := fun he => hqne (by rw [he])
      have hdiff := hqc.2.2 (r, c) hmem' hne'
      exact fun he => hdiff he.symm
    · -- both cells are givens: use the compatibility hypothesis
      have hqnw : (a, b) ∉ buildWork g0 := by
        intro hmem'
        exact hq0 ((mem_buildWork g0 a b).1 hmem').2.2
      have hvq : getCell g' a b = getCell g0 a b := hframe a b hqnw
      show getCell g' a b ≠ getCell g' r c
      rw [hval, hvq]
      refine hgiv r hr c hc a ha b hb ⟨h0, hq0, ?_, hsu⟩
      intro ⟨h1, h2⟩
      exact hqne (by rw [h1, h2])

/-- Main validity theorem for the solver core: a normal return on a
well-formed grid with compatible givens is a complete valid solution. -/
theorem solveGrid_valid (g g' : Grid) (hwf : WF g) (h9 : CellsLe9 g)
    (hgiv : GivensOK g) (hok : solveGrid g = Outcome.ok g') :
    ValidSolution g' :=
  validSolution_of_all_consistent g'
    (exit_all_consistent g g' h9 hgiv (solveGrid_ok_inv g g' hwf h9 hok)
      (solveGrid_ok_frame g g' hok))

theorem WF_emptyGrid : WF emptyGrid := by decide

theorem getCell_emptyGrid (r c : Nat) : getCell emptyGrid r c = 0 := by
  unfold getCell emptyGrid
  have h1 : (List.replicate 10 (List.replicate 10 (0 : Nat))).getD r [] = List.replicate 10 0 ∨
      (List.replicate 10 (List.replicate 10 (0 : Nat))).getD r [] = [] := by
    rw [List.getD_eq_getElem?_getD, List.getElem?_replicate]
    by_cases hr : r < 10
    · rw [if_pos hr]
      exact Or.inl rfl
    · rw [if_neg hr]
      exact Or.inr rfl
  rcases h1 with h1 | h1 <;> rw [h1]
  · rw [List.getD_eq_getElem?_getD, List.getElem?_replicate]
    by_cases hc : c < 10
    · rw [if_pos hc]
      rfl
    · rw [if_neg hc]
      rfl
  · simp

theorem parseLine_ok_some (l : String) (a b v : Nat)
    (h : parseLine l = .ok (some (a, b, v))) : a < 256 ∧ b < 256 ∧ v < 256 := by
  unfold parseLine at h
  by_cases he : trimChars l.data = []
  · rw [if_pos he] at h
    injection h with h
    cases h
  · rw [if_neg he] at h
    rcases h0 : indexField (splitChars ',' (trimChars l.data)) 0 with e | s0 <;> rw [h0] at h
    · cases h
    dsimp only at h
    rcases hr : parseUint s0 with e | row <;> rw [hr] at h
    · cases h
    dsimp only at h
    rcases h1 : indexField (splitChars ',' (trimChars l.data)) 1 with e | s1 <;> rw [h1] at h
    · cases h
    dsimp only at h
    rcases hc : parseUint s1 with e | col <;> rw [hc] at h
    · cases h
    dsimp only at h
    rcases h2 : indexField (splitChars ',' (trimChars l.data)) 2 with e | s2 <;> rw [h2] at h
    · cases h
    dsimp only at h
    rcases hv : parseUint s2 with e | color <;> rw [hv] at h
    · cases h
    injection h with h
    injection h with h
    injection h with ha h
    injection h with hb hv
    subst ha; subst hb; subst hv
    refine ⟨Nat.mod_lt _ (by omega), Nat.mod_lt _ (by omega), Nat.mod_lt _ (by omega)⟩

/-- A non-empty line with fewer than 3 comma-separated fields makes
`parseLine` fail: `comps[2]` (or an earlier field access / parse) is an
error. -/
theorem parseLine_short (line : String) (hne : trimChars line.data ≠ [])
    (hshort : (splitChars ',' (trimChars line.data)).length < 3) :
    ∃ e, parseLine line = .error e := by
  have h2 : indexField (splitChars ',' (trimChars line.data)) 2 =
      .error "index out of bounds" := by
    unfold indexField
    rw [List.get?_eq_none.2 (by omega)]
  unfold parseLine
  rw [if_neg hne]
  rcases h0 : indexField (splitChars ',' (trimChars line.data)) 0 with e | s0
  · exact ⟨e, rfl⟩
  · dsimp only
    rcases hr : parseUint s0 with e | row
    · exact ⟨e, rfl⟩
    · dsimp only
      rcases h1 : indexField (splitChars ',' (trimChars line.data)) 1 with e | s1
      · exact ⟨e, rfl⟩
      · dsimp only
        rcases hc : parseUint s1 with e | col
        · exact ⟨e, rfl⟩
        · dsimp only
          rw [h2]
          exact ⟨"index out of bounds", rfl⟩

theorem processLine_of_parse_error (g : Grid) (line e : String)
    (h : parseLine line = .error e) : processLine g line = .error e := by
  unfold processLine
  rw [h]

/-- Inserting a line whose `parseLine` fails anywhere in the data lines
makes the whole parse fail. -/
theorem processLines_error (l : String) (e : String)
    (hl : parseLine l = .error e) :
    ∀ (pre post : List String) (g : Grid),
      ∃ e', processLines g (pre ++ l :: post) = .error e' := by
  intro pre
  induction pre with
  | nil =>
    intro post g
    refine ⟨e, ?_⟩
    show processLines g (l :: post) = .error e
    unfold processLines
    rw [processLine_of_parse_error g l e hl]
  | cons x xs ih =>
    intro post g
    show ∃ e', processLines g (x :: (xs ++ l :: post)) = .error e'
    unfold processLines
    rcases hx : processLine g x with ex | g'
    · exact ⟨ex, rfl⟩
    · exact ih post g'

/-- `read_grid` fails on any input whose data lines contain a non-empty
line with fewer than 3 comma-separated fields. -/
theorem readGrid_short_line_error (pre post : List String) (line : String)
    (hne : trimChars line.data ≠ [])
    (hshort : (splitChars ',' (trimChars line.data)).length < 3) :
    ∃ e, readGrid ("9,9" :: (pre ++ line :: post)) = .error e := by
  rcases parseLine_short line hne hshort with ⟨e, he⟩
  rcases processLines_error line e he pre post emptyGrid with ⟨e', he'⟩
  refine ⟨e', ?_⟩
  unfold readGrid
  dsimp only
  rw [if_pos rfl]
  exact he'

theorem processLine_pres (g g' : Grid) (line : String)
    (h : processLine g line = .ok g') (hwf : WF g)
    (h255 : ∀ r c, getCell g r c ≤ 255) :
    WF g' ∧ ∀ r c, getCell g' r c ≤ 255 := by
  unfold processLine at h
  rcases hp : parseLine line with e | o <;> rw [hp] at h
  · cases h
  rcases o with _ | ⟨a, b, v⟩
  · injection h with h
    subst h
    exact ⟨hwf, h255⟩
  · dsimp only at h
    by_cases hin : a < 10 ∧ b < 10
    · rw [if_pos hin] at h
      injection h with h
      subst h
      rcases parseLine_ok_some line a b v hp with ⟨_, _, hv⟩
      refine ⟨WF_setCell g hwf a b v, ?_⟩
      intro r c
      by_cases hrc : (r, c) = (a, b)
      · injection hrc with h1 h2
        subst h1; subst h2
        rw [getCell_setCell_same g hwf r c v hin.1 hin.2]
        omega
      · rw [getCell_setCell_ne g a b v r c hrc]
        exact h255 r c
    · rw [if_neg hin] at h
      cases h

theorem processLines_pres (lines : List String) :
    ∀ (g g' : Grid), processLines g lines = .ok g' → WF g →
      (∀ r c, getCell g r c ≤ 255) → WF g' ∧ ∀ r c, getCell g' r c ≤ 255 := by
  induction lines with
  | nil =>
    intro g g' h hwf h255
    injection h with h
    subst h
    exact ⟨hwf, h255⟩
  | cons x xs ih =>
    intro g g' h hwf h255
    unfold processLines at h
    rcases hx : processLine g x with e | g'' <;> rw [hx] at h
    · cases h
    · rcases processLine_pres g g'' x hx hwf h255 with ⟨hwf'', h255''⟩
      exact ih g'' g' h hwf'' h255''

theorem flatMap_congr {α β : Type} (l : List α) (f1 f2 : α → List β)
    (h : ∀ x ∈ l, f1 x = f2 x) : l.flatMap f1 = l.flatMap f2 := by
  induction l with
  | nil => rfl
  | cons x xs ih =>
    rw [List.flatMap_cons, List.flatMap_cons, h x (List.mem_cons_self x xs),
      ih (fun y hy => h y (List.mem_cons_of_mem x hy))]

theorem filterMap_congr {α β : Type} (l : List α) (f1 f2 : α → Option β)
    (h : ∀ x ∈ l, f1 x = f2 x) : l.filterMap f1 = l.filterMap f2 := by
  induction l with
  | nil => rfl
  | cons x xs ih =>
    rw [List.filterMap_cons, List.filterMap_cons, h x (List.mem_cons_self x xs),
      ih (fun y hy => h y (List.mem_cons_of_mem x hy))]

theorem find?_congr {α : Type} (l : List α) (p1 p2 : α → Bool)
    (h : ∀ x ∈ l, p1 x = p2 x) : l.find? p1 = l.find? p2 := by
  induction l with
  | nil => rfl
  | cons x xs ih =>
    rw [List.find?_cons, List.find?_cons, h x (List.mem_cons_self x xs),
      ih (fun y hy => h y (List.mem_cons_of_mem x hy))]

theorem buildWork_congr (g1 g2 : Grid) (h : Agree8 g1 g2) :
    buildWork g1 = buildWork g2 := by
  unfold buildWork
  refine flatMap_congr _ _ _ ?_
  intro row hrow
  rw [List.mem_range] at hrow
  refine filterMap_congr _ _ _ ?_
  intro col hcol
  rw [List.mem_range] at hcol
  rw [h row col hrow hcol]

theorem dropColors_congr (g1 g2 : Grid) (h : Agree8 g1 g2) (row col : Nat)
    (hr : row < 9) (hc : col < 9) (avail : Nat → Bool) (i : Nat) :
    dropColors g1 avail row col i = dropColors g2 avail row col i := by
  have hcells : ∀ q ∈ scanCells row col, getCell g1 q.1 q.2 = getCell g2 q.1 q.2 := by
    intro q hq
    rcases q with ⟨a, b⟩
    have hsu := (mem_scanCells row col a b).1 hq
    rcases sameUnit_bounds row col a b hr hc hsu with ⟨ha, hb⟩
    exact h a b ha hb
  rcases hb1 : dropColors g1 avail row col i with _ | _ <;>
    rcases hb2 : dropColors g2 avail row col i with _ | _
  · rfl
  · have h2 := (dropColors_spec g2 avail row col i).1 hb2
    have h1' : dropColors g1 avail row col i = true :=
      (dropColors_spec g1 avail row col i).2
        ⟨h2.1, fun q hq hcon => h2.2 q hq ⟨(hcells q hq) ▸ hcon.1, hcon.2⟩⟩
    rw [hb1] at h1'
    cases h1'
  · have h1 := (dropColors_spec g1 avail row col i).1 hb1
    have h2' : dropColors g2 avail row col i = true :=
      (dropColors_spec g2 avail row col i).2
        ⟨h1.1, fun q hq hcon => h1.2 q hq ⟨(hcells q hq).symm ▸ hcon.1, hcon.2⟩⟩
    rw [hb2] at h2'
    cases h2'
  · rfl

theorem setCell_agree8 (g1 g2 : Grid) (hwf1 : WF g1) (hwf2 : WF g2)
    (h : Agree8 g1 g2) (a b v : Nat) :
    Agree8 (setCell g1 a b v) (setCell g2 a b v) := by
  intro r c hr hc
  by_cases hrc : (r, c) = (a, b)
  · injection hrc with h1 h2
    subst h1; subst h2
    rw [getCell_setCell_same g1 hwf1 r c v (by omega) (by omega),
      getCell_setCell_same g2 hwf2 r c v (by omega) (by omega)]
  · rw [getCell_setCell_ne g1 a b v r c hrc, getCell_setCell_ne g2 a b v r c hrc]
    exact h r c hr hc

theorem nextColor_congr (g1 g2 : Grid) (h : Agree8 g1 g2) (row col s : Nat)
    (hr : row < 9) (hc : col < 9) :
    ∃ x, nextColor g1 row col s = (setCell g1 row col x, (nextColor g2 row col s).2) ∧
      nextColor g2 row col s = (setCell g2 row col x, (nextColor g2 row col s).2) := by
  unfold nextColor
  by_cases hs : s < 10
  · rw [if_pos hs, if_pos hs]
    have hfind : (List.range' 1 9).find?
          (fun i => dropColors g1 (fun j => decide (s ≤ j ∧ j < 10)) row col i) =
        (List.range' 1 9).find?
          (fun i => dropColors g2 (fun j => decide (s ≤ j ∧ j < 10)) row col i) := by
      refine find?_congr _ _ _ ?_
      intro i _
      exact dropColors_congr g1 g2 h row col hr hc _ i
    rw [hfind]
    rcases hf : (List.range' 1 9).find?
        (fun i => dropColors g2 (fun j => decide (s ≤ j ∧ j < 10)) row col i) with _ | d
    · exact ⟨0, rfl, rfl⟩
    · exact ⟨d, rfl, rfl⟩
  · rw [if_neg hs, if_neg hs]
    exact ⟨0, rfl, rfl⟩

theorem run_sim (work : List (Nat × Nat))
    (hcoords : ∀ q ∈ work, q.1 < 9 ∧ q.2 < 9) :
    ∀ (fuel : Nat) (g1 g2 : Grid) (p : Nat), WF g1 → WF g2 → Agree8 g1 g2 →
      OutRel (run work fuel g1 p) (run work fuel g2 p) := by
  intro fuel
  induction fuel with
  | zero =>
    intro g1 g2 p _ _ _
    exact trivial
  | succ fuel ih =>
    intro g1 g2 p hwf1 hwf2 hag
    rw [run_succ, run_succ]
    by_cases hp : p < work.length
    · have hmem := List.get_mem work p hp
      have hr9 := (hcoords _ hmem).1
      have hc9 := (hcoords _ hmem).2
      have hstart : getCell g1 (work.get ⟨p, hp⟩).1 (work.get ⟨p, hp⟩).2 =
          getCell g2 (work.get ⟨p, hp⟩).1 (work.get ⟨p, hp⟩).2 :=
        hag _ _ hr9 hc9
      rcases nextColor_congr g1 g2 hag (work.get ⟨p, hp⟩).1 (work.get ⟨p, hp⟩).2
          (getCell g2 (work.get ⟨p, hp⟩).1 (work.get ⟨p, hp⟩).2 + 1) hr9 hc9 with
        ⟨x, hn1, hn2⟩
      rw [stepF_eq_of_lt work g1 p hp, stepF_eq_of_lt work g2 p hp, hstart, hn1, hn2]
      by_cases hb : (nextColor g2 (work.get ⟨p, hp⟩).1 (work.get ⟨p, hp⟩).2
          (getCell g2 (work.get ⟨p, hp⟩).1 (work.get ⟨p, hp⟩).2 + 1)).2
      · rw [if_pos hb, if_pos hb]
        dsimp only
        exact ih _ _ (p + 1) (WF_setCell g1 hwf1 _ _ _) (WF_setCell g2 hwf2 _ _ _)
          (setCell_agree8 g1 g2 hwf1 hwf2 hag _ _ x)
      · rw [if_neg hb, if_neg hb]
        by_cases hp0 : p = 0
        · rw [if_pos hp0, if_pos hp0]
          exact trivial
        · rw [if_neg hp0, if_neg hp0]
          dsimp only
          exact ih _ _ (p - 1) (WF_setCell g1 hwf1 _ _ _) (WF_setCell g2 hwf2 _ _ _)
            (setCell_agree8 g1 g2 hwf1 hwf2 hag _ _ x)
    · rw [stepF_eq_of_ge work g1 p hp, stepF_eq_of_ge work g2 p hp]
      exact ⟨hwf1, hwf2, hag⟩

theorem writeGrid_congr (g1 g2 : Grid) (h : Agree8 g1 g2) :
    writeGrid g1 = writeGrid g2 := by
  unfold writeGrid
  refine List.map_congr_left ?_
  intro row hrow
  rw [List.mem_range] at hrow
  congr 1
  refine List.map_congr_left ?_
  intro col hcol
  rw [List.mem_range] at hcol
  rw [h row col hrow hcol]

theorem processLines_rel (lines : List String) :
    ∀ (g1 g2 : Grid), WF g1 → WF g2 → Agree8 g1 g2 →
      GridRel (processLines g1 lines) (processLines g2 lines) := by
  induction lines with
  | nil =>
    intro g1 g2 hwf1 hwf2 hag
    exact ⟨hwf1, hwf2, hag⟩
  | cons x xs ih =>
    intro g1 g2 hwf1 hwf2 hag
    show GridRel (processLines g1 (x :: xs)) (processLines g2 (x :: xs))
    unfold processLines processLine
    rcases hp : parseLine x with e | o
    · exact rfl
    · rcases o with _ | ⟨a, b, v⟩
      · exact ih g1 g2 hwf1 hwf2 hag
      · dsimp only
        by_cases hin : a < 10 ∧ b < 10
        · rw [if_pos hin, if_pos hin]
          exact ih _ _ (WF_setCell g1 hwf1 a b v) (WF_setCell g2 hwf2 a b v)
            (setCell_agree8 g1 g2 hwf1 hwf2 hag a b v)
        · rw [if_neg hin, if_neg hin]
          exact rfl

theorem processLines_cons_ok (g g' : Grid) (s : String) (ls : List String)
    (h : processLine g s = .ok g') :
    processLines g (s :: ls) = processLines g' ls := by
  show (match processLine g s with
    | Except.error e => Except.error e
    | Except.ok g'' => processLines g'' ls) = processLines g' ls
  rw [h]

theorem processLines_cons_error (g : Grid) (s : String) (ls : List String)
    (e : String) (h : processLine g s = .error e) :
    processLines g (s :: ls) = .error e := by
  show (match processLine g s with
    | Except.error e' => Except.error e'
    | Except.ok g'' => processLines g'' ls) = Except.error e
  rw [h]

theorem processLine_ok_WF (g g' : Grid) (s : String)
    (h : processLine g s = .ok g') (hwf : WF g) : WF g' := by
  unfold processLine at h
  rcases hp : parseLine s with e | o <;> rw [hp] at h
  · cases h
  · rcases o with _ | ⟨a, b, v⟩
    · injection h with h
      rw [← h]
      exact hwf
    · dsimp only at h
      by_cases hin : a < 10 ∧ b < 10
      · rw [if_pos hin] at h
        injection h with h
        rw [← h]
        exact WF_setCell g hwf a b v
      · rw [if_neg hin] at h
        cases h

theorem readGrid_cons99 (rest : List String) :
    readGrid ("9,9" :: rest) = processLines emptyGrid rest := by
  unfold readGrid
  dsimp only
  rw [if_pos rfl]

/-- Processing one line whose parsed row or column index is 9 writes only
outside the 0–8 board. -/
theorem processLine_row9 (g : Grid) (l : String) (a b v : Nat)
    (hl : parseLine l = .ok (some (a, b, v))) (h9 : a = 9 ∨ b = 9)
    (ha : a ≤ 9) (hb : b ≤ 9) (hwf : WF g) :
    processLine g l = .ok (setCell g a b v) ∧ WF (setCell g a b v) ∧
      Agree8 (setCell g a b v) g := by
  refine ⟨?_, WF_setCell g hwf a b v, ?_⟩
  · unfold processLine
    rw [hl]
    dsimp only
    rw [if_pos ⟨by omega, by omega⟩]
  · intro r c hr hc
    rw [getCell_setCell_ne g a b v r c (by intro he; injection he with h1 h2; omega)]

/-- The whole program ignores a data line whose row or column field is 9:
the output is the same as with the line removed. -/
theorem runProgram_line9_irrelevant (pre post : List String) (l : String)
    (a b v : Nat) (hl : parseLine l = .ok (some (a, b, v))) (h9 : a = 9 ∨ b = 9)
    (ha : a ≤ 9) (hb : b ≤ 9) :
    runProgram ("9,9" :: (pre ++ l :: post)) = runProgram ("9,9" :: (pre ++ post)) := by
  have hread : ∀ (g : Grid), WF g →
      GridRel (processLines g (pre ++ l :: post)) (processLines g (pre ++ post)) := by
    intro g hwf
    induction pre generalizing g with
    | nil =>
      rcases processLine_row9 g l a b v hl h9 ha hb hwf with ⟨heq, hwf', hag⟩
      show GridRel (processLines g (l :: post)) (processLines g post)
      rw [processLines_cons_ok g (setCell g a b v) l post heq]
      exact processLines_rel post (setCell g a b v) g hwf' hwf hag
    | cons x xs ih =>
      show GridRel (processLines g (x :: (xs ++ l :: post)))
        (processLines g (x :: (xs ++ post)))
      rcases hx : processLine g x with e | g'
      · rw [processLines_cons_error g x (xs ++ l :: post) e hx,
          processLines_cons_error g x (xs ++ post) e hx]
        exact rfl
      · rw [processLines_cons_ok g g' x (xs ++ l :: post) hx,
          processLines_cons_ok g g' x (xs ++ post) hx]
        exact ih g' (processLine_ok_WF g g' x hx hwf)
  have hrel := hread emptyGrid WF_emptyGrid
  unfold runProgram
  rw [readGrid_cons99, readGrid_cons99]
  rcases hr1 : processLines emptyGrid (pre ++ l :: post) with e1 | g1 <;>
    rcases hr2 : processLines emptyGrid (pre ++ post) with e2 | g2 <;>
    rw [hr1, hr2] at hrel <;> unfold GridRel at hrel
  · rw [hrel]
  · cases hrel
  · cases hrel
  · rcases hrel with ⟨hwf1, hwf2, hag⟩
    have hwork := buildWork_congr g1 g2 hag
    have hsim : OutRel (solveGrid g1) (solveGrid g2) := by
      unfold solveGrid
      rw [← hwork]
      exact run_sim (buildWork g1)
        (fun q hq => ⟨(buildWork_coords g1 q hq).1, (buildWork_coords g1 q hq).2.1⟩)
        (11 ^ (buildWork g1).length + 1) g1 g2 0 hwf1 hwf2 hag
    dsimp only
    rcases ho1 : solveGrid g1 with g1' | _ | _ <;>
      rcases ho2 : solveGrid g2 with g2' | _ | _ <;>
      rw [ho1, ho2] at hsim <;>
      first
        | exact False.elim hsim
        | (dsimp only
           rcases hsim with ⟨w1, w2, hag'⟩
           rw [writeGrid_congr _ _ hag'])
        | rfl

theorem readGrid_shape (input : List String) (g : Grid)
    (h : readGrid input = .ok g) :
    g.length = 10 ∧ (∀ i, i < 10 → (g.getD i []).length = 10) ∧
      ∀ r c, getCell g r c ≤ 255 := by
  unfold readGrid at h
  rcases input with _ | ⟨first, rest⟩
  · cases h
  · dsimp only at h
    by_cases hf : first = "9,9"
    · rw [if_pos hf] at h
      have := processLines_pres rest emptyGrid g h WF_emptyGrid
        (fun r c => by rw [getCell_emptyGrid]; omega)
      exact ⟨this.1.1, this.1.2, this.2⟩
    · rw [if_neg hf] at h
      cases h

theorem iterState_inv (g0 : Grid) (hwf : WF g0) (h9 : CellsLe9 g0) :
    ∀ (n : Nat) (g : Grid) (p : Nat), iterState g0 n = some (g, p) →
      InvW (buildWork g0) g p := by
  intro n
  induction n with
  | zero =>
    intro g p h
    unfold iterState at h
    rw [Function.iterate_zero_apply] at h
    injection h with h
    injection h with h1 h2
    rw [← h1, ← h2]
    exact InvW_init g0 hwf h9
  | succ n ih =>
    intro g p h
    unfold iterState at h
    rw [Function.iterate_succ_apply'] at h
    rcases hn : (stepO (buildWork g0))^[n] (some (g0, 0)) with _ | ⟨g1, p1⟩
    · rw [hn] at h
      cases h
    · rw [hn] at h
      have hinv1 := ih g1 p1 hn
      unfold stepO at h
      dsimp only at h
      cases hs : stepF (buildWork g0) g1 p1 with
      | cont g2 p2 =>
        rw [hs] at h
        injection h with h
        injection h with h1 h2
        rw [← h1, ← h2]
        exact stepF_preserves (buildWork g0) g1 p1 g2 p2 (goodWork_buildWork g0) hinv1 hs
      | done g2 =>
        rw [hs] at h
        cases h
      | failed =>
        rw [hs] at h
        cases h

theorem candidateAt_iff_otherFree (g : Grid) (row col start d : Nat)
    (hrow : row < 9) (hcol : col < 9) (hstart : 1 ≤ start)
    (hcur : getCell g row col < start) :
    CandidateAt g row col start d ↔
      (start ≤ d ∧ d ≤ 9 ∧ OtherFree g row col d) := by
  constructor
  · rintro ⟨h1, h2, h3, h4⟩
    refine ⟨h2, h3, ?_⟩
    intro a ha b hb hsu
    exact h4 (a, b) ((mem_scanCells row col a b).2 hsu.1)
  · rintro ⟨h2, h3, h4⟩
    refine ⟨by omega, h2, h3, ?_⟩
    intro q hq
    rcases q with ⟨a, b⟩
    have hsu := (mem_scanCells row col a b).1 hq
    rcases sameUnit_bounds row col a b hrow hcol hsu with ⟨ha, hb⟩
    by_cases hself : a = row ∧ b = col
    · rcases hself with ⟨h5, h6⟩
      subst h5; subst h6
      intro he
      dsimp only at he
      omega
    · exact h4 a ha b hb ⟨hsu, hself⟩

/-! ### The claims -/

/-- C1 (amended): for every well-formed input grid with values in [0, 9]
whose non-zero givens are pairwise non-conflicting, if `solve_grid`
returns normally then the resulting grid is a complete valid Sudoku
solution: every row, column and 3×3 block holds 1..9 as a permutation,
including the given cells.  (The compatible-givens hypothesis is the
amendment: the solver never compares two givens with each other, see the
counterexample.) -/
theorem solve_grid_valid_solution (g g' : Grid) (hwf : WF g) (h9 : CellsLe9 g)
    (hgiv : GivensOK g) (hok : solveGrid g = Outcome.ok g') : ValidSolution g' :=
  solveGrid_valid g g' hwf h9 hgiv hok

/-- C1 counterexample: the all-7s grid has every value in [0, 9], makes
`solve_grid` return normally (its work list is empty), yet the result is
not a valid solution — refuting the claim as stated. -/
theorem solve_grid_valid_solution_counterexample :
    WF grid7s ∧ CellsLe9 grid7s ∧ solveGrid grid7s = Outcome.ok grid7s ∧
      ¬ValidSolution grid7s := by decide

/-- C1 witness: a puzzle with one empty cell is solved to a complete
valid solution. -/
theorem solve_grid_valid_solution_witness :
    (WF almostGrid ∧ CellsLe9 almostGrid ∧ GivensOK almostGrid ∧
      solveGrid almostGrid = Outcome.ok fullGrid) ∧ ValidSolution fullGrid :=
  ⟨by decide,
    solve_grid_valid_solution almostGrid fullGrid (by decide) (by decide)
      (by decide) (by decide)⟩

/-- C2: every cell that is non-zero when `solve_grid` is entered holds
that exact value when it returns normally, and more generally the driver
writes only to work-list cells (cells of the 0–8 board that were 0 at
entry): every cell outside the work list is unchanged. -/
theorem conservation_of_givens (g g' : Grid) (hok : solveGrid g = Outcome.ok g') :
    (∀ r c, getCell g r c ≠ 0 → getCell g' r c = getCell g r c) ∧
      ∀ r c, (r, c) ∉ buildWork g → getCell g' r c = getCell g r c := by
  refine ⟨?_, solveGrid_ok_frame g g' hok⟩
  intro r c hnz
  refine solveGrid_ok_frame g g' hok r c ?_
  intro hmem
  exact hnz ((mem_buildWork g r c).1 hmem).2.2

/-- C2 witness: solving the one-hole puzzle preserves all its givens. -/
theorem conservation_of_givens_witness :
    solveGrid almostGrid = Outcome.ok fullGrid ∧
      ((∀ r c, getCell almostGrid r c ≠ 0 →
        getCell fullGrid r c = getCell almostGrid r c) ∧
      ∀ r c, (r, c) ∉ buildWork almostGrid →
        getCell fullGrid r c = getCell almostGrid r c) :=
  ⟨by decide, conservation_of_givens almostGrid fullGrid (by decide)⟩

/-- C3: for a target cell in the 0–8 board, a start digit with
`1 ≤ start` and `g[row][col] < start` (true at every call site): if some
digit of `[start, 9]` is held by no other cell of the row, column or
block, `next_color` writes the smallest such digit and returns true;
otherwise (including `start > 9`) it writes 0 and returns false; no other
cell is modified. -/
theorem next_color_spec (g : Grid) (row col start : Nat) (hwf : WF g)
    (h9 : CellsLe9 g) (hrow : row < 9) (hcol : col < 9) (hstart : 1 ≤ start)
    (hcur : getCell g row col < start) :
    ((∃ d, start ≤ d ∧ d ≤ 9 ∧ OtherFree g row col d) →
      ∃ d, (start ≤ d ∧ d ≤ 9 ∧ OtherFree g row col d) ∧
        (∀ e, start ≤ e → e ≤ 9 → OtherFree g row col e → d ≤ e) ∧
        nextColor g row col start = (setCell g row col d, true)) ∧
    ((¬∃ d, start ≤ d ∧ d ≤ 9 ∧ OtherFree g row col d) →
      nextColor g row col start = (setCell g row col 0, false)) ∧
    (∀ r' c', ¬(r' = row ∧ c' = col) →
      getCell (nextColor g row col start).1 r' c' = getCell g r' c') := by
  have hiff := fun d => candidateAt_iff_otherFree g row col start d hrow hcol hstart hcur
  rcases nextColor_char g row col start with ⟨d, hcand, hmin, heq⟩ | ⟨hnone, heq⟩
  · refine ⟨fun _ => ⟨d, (hiff d).1 hcand, ?_, heq⟩,
      fun hno => absurd ⟨d, (hiff d).1 hcand⟩ hno, ?_⟩
    · intro e h1 h2 h3
      exact hmin e ((hiff e).2 ⟨h1, h2, h3⟩)
    · intro r' c' hne
      rw [heq]
      exact getCell_setCell_ne g row col d r' c'
        (fun he => by injection he with u1 u2; exact hne ⟨u1, u2⟩)
  · refine ⟨fun hex => ?_, fun _ => heq, ?_⟩
    · rcases hex with ⟨d, hd⟩
      exact absurd ((hiff d).2 hd) (hnone d)
    · intro r' c' hne
      rw [heq]
      exact getCell_setCell_ne g row col 0 r' c'
        (fun he => by injection he with u1 u2; exact hne ⟨u1, u2⟩)

/-- C3 witness: at the single hole of `almostGrid` with start 1, the
spec applies (the candidate found there is 8, by the theorem's first
clause). -/
theorem next_color_spec_witness :
    (WF almostGrid ∧ CellsLe9 almostGrid ∧ 8 < 9 ∧ 8 < 9 ∧ 1 ≤ 1 ∧
      getCell almostGrid 8 8 < 1) ∧
    (((∃ d, 1 ≤ d ∧ d ≤ 9 ∧ OtherFree almostGrid 8 8 d) →
      ∃ d, (1 ≤ d ∧ d ≤ 9 ∧ OtherFree almostGrid 8 8 d) ∧
        (∀ e, 1 ≤ e → e ≤ 9 → OtherFree almostGrid 8 8 e → d ≤ e) ∧
        nextColor almostGrid 8 8 1 = (setCell almostGrid 8 8 d, true)) ∧
    ((¬∃ d, 1 ≤ d ∧ d ≤ 9 ∧ OtherFree almostGrid 8 8 d) →
      nextColor almostGrid 8 8 1 = (setCell almostGrid 8 8 0, false)) ∧
    (∀ r' c', ¬(r' = 8 ∧ c' = 8) →
      getCell (nextColor almostGrid 8 8 1).1 r' c' = getCell almostGrid r' c')) :=
  ⟨by decide,
    next_color_spec almostGrid 8 8 1 (by decide) (by decide) (by decide)
      (by decide) (by decide) (by decide)⟩

/-- C4: on every well-formed grid with values in [0, 9] `solve_grid`
terminates, returning normally or failing with the unsolvable error; a
normal return happens only once the cursor is no longer below the
work-list length (the accepting state), and the failure arises exactly
from a retreat attempted at cursor 0, which is the only error the
solving core raises (the model has no other failing branch). -/
theorem solve_grid_terminates (g : Grid) (hwf : WF g) (h9 : CellsLe9 g) :
    ((∃ g', solveGrid g = Outcome.ok g') ∨ solveGrid g = Outcome.unsolvable) ∧
      (∀ (work : List (Nat × Nat)) (h : Grid) (p : Nat),
        stepF work h p = StepRes.failed → p = 0 ∧ p < work.length) ∧
      ∀ (work : List (Nat × Nat)) (h h' : Grid) (p : Nat),
        stepF work h p = StepRes.done h' → ¬p < work.length ∧ h' = h := by
  refine ⟨?_, fun work h p => stepF_failed_cases work h p,
    fun work h h' p => stepF_done_cases work h p h'⟩
  rcases ho : solveGrid g with g' | _ | _
  · exact Or.inl ⟨g', rfl⟩
  · exact Or.inr rfl
  · exact absurd ho (solveGrid_not_fuelOut g hwf h9)

/-- C4 witness: on the complete grid the solver terminates normally. -/
theorem solve_grid_terminates_witness :
    (WF fullGrid ∧ CellsLe9 fullGrid) ∧
      (((∃ g', solveGrid fullGrid = Outcome.ok g') ∨
        solveGrid fullGrid = Outcome.unsolvable) ∧
      (∀ (work : List (Nat × Nat)) (h : Grid) (p : Nat),
        stepF work h p = StepRes.failed → p = 0 ∧ p < work.length) ∧
      ∀ (work : List (Nat × Nat)) (h h' : Grid) (p : Nat),
        stepF work h p = StepRes.done h' → ¬p < work.length ∧ h' = h) :=
  ⟨by decide, solve_grid_terminates fullGrid (by decide) (by decide)⟩

/-- C5 (amended): a grid with two identical non-zero givens in the same
row never yields a valid solution: either `solve_grid` raises the
unsolvable error, or it returns normally with the duplicate still in
place, so the returned grid is not a valid solution.  (The claim's
unconditional "raises the unsolvable error" is refuted by the
counterexample.) -/
theorem duplicate_givens_no_valid_result (g : Grid) (r c1 c2 : Nat) (hr : r < 9)
    (hc1 : c1 < 9) (hc2 : c2 < 9) (hne : c1 ≠ c2) (hnz : getCell g r c1 ≠ 0)
    (hdup : getCell g r c1 = getCell g r c2) :
    ∀ g', solveGrid g = Outcome.ok g' →
      getCell g' r c1 = getCell g' r c2 ∧ getCell g' r c1 ≠ 0 ∧
        ¬ValidSolution g' := by
  intro g' hok
  have hnz2 : getCell g r c2 ≠ 0 := by rw [← hdup]; exact hnz
  have hf1 : getCell g' r c1 = getCell g r c1 := by
    refine solveGrid_ok_frame g g' hok r c1 ?_
    intro hmem
    exact hnz ((mem_buildWork g r c1).1 hmem).2.2
  have hf2 : getCell g' r c2 = getCell g r c2 := by
    refine solveGrid_ok_frame g g' hok r c2 ?_
    intro hmem
    exact hnz2 ((mem_buildWork g r c2).1 hmem).2.2
  have heq : getCell g' r c1 = getCell g' r c2 := by rw [hf1, hf2, hdup]
  refine ⟨heq, by rw [hf1]; exact hnz, ?_⟩
  intro hvalid
  have hperm := hvalid.1 r hr
  have hnodup : (rowVals g' r).Nodup := hperm.nodup_iff.2 (by decide)
  have hinj := List.inj_on_of_nodup_map hnodup
  exact hne (hinj (List.mem_range.2 hc1) (List.mem_range.2 hc2) heq)

/-- C5 counterexample: the all-5s grid has the identical givens (0,0,5)
and (0,1,5) in row 0, yet `solve_grid` returns normally instead of
raising the unsolvable error — refuting the claim as stated. -/
theorem duplicate_givens_counterexample :
    getCell grid5s 0 0 = 5 ∧ getCell grid5s 0 1 = 5 ∧
      solveGrid grid5s = Outcome.ok grid5s := by decide

/-- C5 witness: the all-5s grid satisfies the amended claim: its normal
return keeps the duplicate and is not a valid solution. -/
theorem duplicate_givens_witness :
    ((0 : Nat) < 9 ∧ (0 : Nat) < 9 ∧ (1 : Nat) < 9 ∧ (0 : Nat) ≠ 1 ∧
      getCell grid5s 0 0 ≠ 0 ∧ getCell grid5s 0 0 = getCell grid5s 0 1 ∧
      solveGrid grid5s = Outcome.ok grid5s) ∧
      (getCell grid5s 0 0 = getCell grid5s 0 1 ∧ getCell grid5s 0 0 ≠ 0 ∧
        ¬ValidSolution grid5s) :=
  ⟨by decide,
    duplicate_givens_no_valid_result grid5s 0 0 1 (by decide) (by decide)
      (by decide) (by decide) (by decide) (by decide) grid5s (by decide)⟩

/-- C6 (amended): at every iteration boundary of the search loop with
cursor `p`, every work-list cell at a position strictly *less* than `p`
holds a consistent digit 1–9, every cell at a position strictly
*greater* than `p` holds 0, and the cell at position `p` itself holds 0
or a still-consistent previously assigned digit.  (The claim's "cells at
positions ≥ p hold 0" fails right after a backward step, see the
counterexample.) -/
theorem loop_invariant_amended (g0 : Grid) (hwf : WF g0) (h9 : CellsLe9 g0)
    (n : Nat) (g : Grid) (p : Nat) (h : iterState g0 n = some (g, p)) :
    p ≤ (buildWork g0).length ∧
      (∀ i, i < p → Consistent g ((buildWork g0).getD i (0, 0)).1
        ((buildWork g0).getD i (0, 0)).2) ∧
      (∀ i, p < i → i < (buildWork g0).length → workVal (buildWork g0) g i = 0) ∧
      (p < (buildWork g0).length → workVal (buildWork g0) g p = 0 ∨
        Consistent g ((buildWork g0).getD p (0, 0)).1 ((buildWork g0).getD p (0, 0)).2) := by
  have hinv := iterState_inv g0 hwf h9 n g p h
  exact ⟨hinv.2.2.1, hinv.2.2.2.1, hinv.2.2.2.2.1, hinv.2.2.2.2.2⟩

/-- C6 counterexample: on `gridC6` the loop assigns 1 to work cell 0,
fails at work cell 1 and retreats to cursor 0; at that boundary work
position 0 (≥ the cursor) still holds 1, not 0 — refuting the claimed
invariant for positions ≥ p after a backward step. -/
theorem loop_invariant_counterexample :
    buildWork gridC6 = [(0, 0), (0, 1)] ∧
      iterState gridC6 2 = some (setCell (setCell gridC6 0 0 1) 0 1 0, 0) ∧
      getCell (setCell (setCell gridC6 0 0 1) 0 1 0) 0 0 = 1 := by decide

/-- C6 witness: the amended invariant at the boundary reached after the
two steps of the counterexample trace. -/
theorem loop_invariant_witness :
    (WF gridC6 ∧ CellsLe9 gridC6 ∧
      iterState gridC6 2 = some (setCell (setCell gridC6 0 0 1) 0 1 0, 0)) ∧
      (0 ≤ (buildWork gridC6).length ∧
        (∀ i, i < 0 → Consistent (setCell (setCell gridC6 0 0 1) 0 1 0)
          ((buildWork gridC6).getD i (0, 0)).1 ((buildWork gridC6).getD i (0, 0)).2) ∧
        (∀ i, 0 < i → i < (buildWork gridC6).length →
          workVal (buildWork gridC6) (setCell (setCell gridC6 0 0 1) 0 1 0) i = 0) ∧
        (0 < (buildWork gridC6).length →
          workVal (buildWork gridC6) (setCell (setCell gridC6 0 0 1) 0 1 0) 0 = 0 ∨
          Consistent (setCell (setCell gridC6 0 0 1) 0 1 0)
            ((buildWork gridC6).getD 0 (0, 0)).1 ((buildWork gridC6).getD 0 (0, 0)).2)) :=
  ⟨by decide,
    loop_invariant_amended gridC6 (by decide) (by decide) 2
      (setCell (setCell gridC6 0 0 1) 0 1 0) 0 (by decide)⟩

/-- C7 (amended): a data line that is non-empty after trimming but
splits into fewer than 3 comma-separated fields makes `read_grid` fail
(out-of-bounds field access), aborting the parse — it is *not* silently
ignored. -/
theorem short_line_aborts (pre post : List String) (line : String)
    (hne : trimChars line.data ≠ [])
    (hshort : (splitChars ',' (trimChars line.data)).length < 3) :
    ∃ e, readGrid ("9,9" :: (pre ++ line :: post)) = .error e :=
  readGrid_short_line_error pre post line hne hshort

/-- C7 counterexample: with the 2-field line "1,2" present, `read_grid`
fails instead of returning the grid it returns without that line —
refuting "ignores that line without failing". -/
theorem short_line_counterexample :
    readGrid ["9,9", "1,2"] = .error "index out of bounds" ∧
      readGrid ["9,9"] = .ok emptyGrid ∧
      readGrid ["9,9", "1,2"] ≠ readGrid ["9,9"] := by decide

/-- C7 witness: the amended claim applied to the 2-field line "1,2". -/
theorem short_line_witness :
    (trimChars "1,2".data ≠ [] ∧
      (splitChars ',' (trimChars "1,2".data)).length < 3) ∧
      ∃ e, readGrid ("9,9" :: ([] ++ "1,2" :: [])) = .error e :=
  ⟨by decide, short_line_aborts [] [] "1,2" (by decide) (by decide)⟩

/-- C8 (amended): the grid `read_grid` returns is a fixed *10×10* array
(one extra row and column beyond the 9×9 board), every cell holding a u8
value (≤ 255, the parsed color truncated mod 256); `solve_grid` and
`write_grid` then operate only on the [0,8]×[0,8] part.  (The claimed
9×9 shape and unconditional [0,9] range are refuted by the
counterexample.) -/
theorem read_grid_shape_amended (input : List String) (g : Grid)
    (h : readGrid input = .ok g) :
    g.length = 10 ∧ (∀ i, i < 10 → (g.getD i []).length = 10) ∧
      ∀ r c, getCell g r c ≤ 255 :=
  readGrid_shape input g h

/-- C8 counterexample: `read_grid` yields a grid with 10 rows (not 9),
and the line "0,0,77" stores the out-of-range value 77 — refuting both
the 9×9 shape and the [0,9] cell range of the claim. -/
theorem read_grid_shape_counterexample :
    readGrid ["9,9", "0,0,77"] = .ok (setCell emptyGrid 0 0 77) ∧
      ¬(setCell emptyGrid 0 0 77).length = 9 ∧
      ¬getCell (setCell emptyGrid 0 0 77) 0 0 ≤ 9 := by decide

/-- C8 witness: the amended shape of the grid parsed from the bare
header. -/
theorem read_grid_shape_witness :
    readGrid ["9,9"] = .ok emptyGrid ∧
      (emptyGrid.length = 10 ∧ (∀ i, i < 10 → (emptyGrid.getD i []).length = 10) ∧
        ∀ r c, getCell emptyGrid r c ≤ 255) :=
  ⟨by decide, read_grid_shape_amended ["9,9"] emptyGrid (by decide)⟩

/-- C9: on a grid whose 81 board cells are all non-zero the work list is
empty, the driver's first step is already the accepting `done` state
(zero loop iterations), and `solve_grid` returns the grid unchanged. -/
theorem complete_grid_noop (g : Grid)
    (h : ∀ r, r < 9 → ∀ c, c < 9 → getCell g r c ≠ 0) :
    buildWork g = [] ∧ stepF (buildWork g) g 0 = StepRes.done g ∧
      solveGrid g = Outcome.ok g := by
  have hwork : buildWork g = [] := by
    refine List.eq_nil_iff_forall_not_mem.2 ?_
    intro q hq
    rcases buildWork_coords g q hq with ⟨h1, h2, h3⟩
    exact h q.1 h1 q.2 h2 h3
  refine ⟨hwork, ?_, ?_⟩
  · rw [hwork]
    exact stepF_eq_of_ge [] g 0 (by simp)
  · unfold solveGrid
    rw [hwork]
    rfl

/-- C9 witness: feeding the complete solution back in changes nothing. -/
theorem complete_grid_noop_witness :
    (∀ r, r < 9 → ∀ c, c < 9 → getCell fullGrid r c ≠ 0) ∧
      (buildWork fullGrid = [] ∧
        stepF (buildWork fullGrid) fullGrid 0 = StepRes.done fullGrid ∧
        solveGrid fullGrid = Outcome.ok fullGrid) :=
  ⟨by decide, complete_grid_noop fullGrid (by decide)⟩

/-- C10: a data line whose parsed row or column index is 9 is accepted
by `read_grid` (stored by a bounds-checked write into the 10th row or
column) but has no effect on solving or output: the program's output is
identical with and without the line. -/
theorem row9_line_no_effect (pre post : List String) (l : String) (a b v : Nat)
    (hl : parseLine l = .ok (some (a, b, v))) (h9 : a = 9 ∨ b = 9)
    (ha : a ≤ 9) (hb : b ≤ 9) :
    (∀ g : Grid, WF g → processLine g l = .ok (setCell g a b v)) ∧
      runProgram ("9,9" :: (pre ++ l :: post)) = runProgram ("9,9" :: (pre ++ post)) :=
  ⟨fun g hwf => (processLine_row9 g l a b v hl h9 ha hb hwf).1,
    runProgram_line9_irrelevant pre post l a b v hl h9 ha hb⟩

/-- C10 witness: the line "9,0,5" is accepted and the program output on
the example is unchanged by removing it. -/
theorem row9_line_no_effect_witness :
    (parseLine "9,0,5" = .ok (some (9, 0, 5)) ∧ ((9 : Nat) = 9 ∨ (0 : Nat) = 9) ∧
      (9 : Nat) ≤ 9 ∧ (0 : Nat) ≤ 9) ∧
      ((∀ g : Grid, WF g → processLine g "9,0,5" = .ok (setCell g 9 0 5)) ∧
        runProgram ("9,9" :: ([] ++ "9,0,5" :: ["0,1,4"])) =
          runProgram ("9,9" :: ([] ++ ["0,1,4"]))) :=
  ⟨by decide,
    row9_line_no_effect [] ["0,1,4"] "9,0,5" 9 0 5 (by decide) (Or.inl rfl)
      (by decide) (by decide)⟩

